import Mathlib

/-!
Verification of the JMH photo consolidation pipeline
(`src/scripts/jmh_consolidation.py`, class `PhotoConsolidator`).

The pipeline's filesystem is modelled shallowly:

* `FS` — a component-path filesystem: an association list from paths
  (lists of name components) to file contents (abstract `Nat` ids).
  Used for the Merge Engine (`import_to_darktable` / `_merge_directories`)
  and the Temporal Organizer (`organize_by_date` / `_get_photo_date`).
* `SFS` — a flat string-path filesystem, used for the Duplicate Resolver
  (`run_jdupes_deduplication` / `_handle_duplicates`), whose inputs are
  plain path strings parsed from the external detector's output.

External tools (jdupes, exiftool) are oracles: their observable outputs
(return code, stdout) are parameters of the corresponding definitions,
exactly as the Python code consumes `subprocess.run` results.
Per-file I/O exceptions raised by `shutil` calls are modelled by a
failure oracle `fail : ... → Bool`, matching the `try/except` structure
of the source.  Logging is out of scope (the spec treats log output as
an external collaborator), so only non-log filesystem effects are
modelled.
-/

set_option maxRecDepth 100000

namespace Photonic

/-- A path component (a file or directory name). -/
abbrev Name := String

/-- A filesystem path, as a list of components. -/
abbrev Path := List Name

/-- A filesystem: an association list from paths to file contents
(abstract content identifiers).  Directories are implicit: a directory
exists when some file lies strictly below it.  The first binding for a
path is the visible one. -/
structure FS where
  files : List (Path × Nat)
deriving DecidableEq, Repr

namespace FS

/-- Content of the file at `p`, if any (first binding wins). -/
def get (fs : FS) (p : Path) : Option Nat :=
  (fs.files.find? (fun e => e.1 = p)).map (·.2)

/-- `True` iff a regular file is bound at `p`. -/
def isFileAt (fs : FS) (p : Path) : Bool :=
  (fs.get p).isSome

/-- `True` iff some file lies strictly below `p`, i.e. `p` is a
(non-empty) directory. -/
def isDirAt (fs : FS) (p : Path) : Bool :=
  fs.files.any (fun e => e.1.take p.length = p && p.length < e.1.length)

/-- Python `Path.exists()`: a file or a directory is present at `p`. -/
def existsAt (fs : FS) (p : Path) : Bool :=
  fs.isFileAt p || fs.isDirAt p

/-- Bind content `c` at path `p` (shadowing any previous binding):
the effect of creating the destination file of a `shutil.copy2`. -/
def insert (fs : FS) (p : Path) (c : Nat) : FS :=
  ⟨(p, c) :: fs.files⟩

/-- Remove every binding at path `p`. -/
def erase (fs : FS) (p : Path) : FS :=
  ⟨fs.files.filter (fun e => ¬ e.1 = p)⟩

/-- `shutil.move` of file `src` onto `dst`: the source binding
disappears and `dst` holds the moved content, replacing (destroying)
any file previously at `dst` — POSIX rename semantics. -/
def move (fs : FS) (src dst : Path) : FS :=
  match fs.get src with
  | some c => ((fs.erase src).erase dst).insert dst c
  | none => fs

/-- The names of the immediate children of directory `dir`
(Python `Path.iterdir()`: files and subdirectories alike). -/
def childNames (fs : FS) (dir : Path) : List Name :=
  (fs.files.filterMap (fun e =>
    if e.1.take dir.length = dir then (e.1.drop dir.length).head? else none)).dedup

/-- `shutil.copytree src dst`: every file under `src` is copied to the
mirrored path under `dst`; the source is untouched. -/
def copytree (fs : FS) (src dst : Path) : FS :=
  ⟨(fs.files.filterMap (fun e =>
      if e.1.take src.length = src then
        some (dst ++ e.1.drop src.length, e.2)
      else none)) ++ fs.files⟩

end FS

/-! ### Merge Engine (`import_to_darktable` / `_merge_directories`)

`_merge_directories` walks the source directory; subdirectories are
recursively merged (or `copytree`d when absent at the destination),
files are `copy2`d, and a name conflict is resolved by the
`while dest_item.exists()` loop that appends `_1`, `_2`, … to the
filename's stem.  The unbounded `while` loop and the recursion are
given an explicit `fuel` parameter; exhausted fuel makes the model stop
(perform no further copy), which corresponds to the loop not having
terminated yet — every real, terminating run is the model at a
sufficiently large fuel. -/

/-- Index of the last `.` in a list of characters, if any
(Python `str.rfind`, restricted to `'.'`). -/
def rfindDot : List Char → Option Nat
  | [] => none
  | c :: rest =>
    match rfindDot rest with
    | some i => some (i + 1)
    | none => if c = '.' then some 0 else none

/-- Python `PurePath.stem` and `PurePath.suffix` of a filename: split at
the last dot when it is neither the first nor the last character,
otherwise the suffix is empty. -/
def splitName (nm : Name) : Name × Name :=
  let cs := nm.data
  match rfindDot cs with
  | some i =>
    if 0 < i ∧ i < cs.length - 1 then (⟨cs.take i⟩, ⟨cs.drop i⟩)
    else (nm, "")
  | none => (nm, "")

/-- The conflict name `f"{base_name}_{counter}{extension}"`. -/
def suffixedName (stem ext : Name) (k : Nat) : Name :=
  stem ++ "_" ++ toString k ++ ext

/-- The `while dest_item.exists()` loop of `_merge_directories`: try
`stem_k ext` for `k = start, start+1, …` until a non-existing path is
found.  `none` means the fuel ran out before the loop exited. -/
def findFree (fs : FS) (destDir : Path) (stem ext : Name) :
    Nat → Nat → Option Path
  | 0, _ => none
  | fuel + 1, k =>
    let cand := destDir ++ [suffixedName stem ext k]
    if fs.existsAt cand then findFree fs destDir stem ext fuel (k + 1)
    else some cand

mutual

/-- `_merge_directories(src_dir, dest_dir)`: fold the merge of every
immediate child of `sp` into `dp`. -/
def mergeDirs : Nat → FS → Path → Path → FS
  | 0, fs, _, _ => fs
  | fuel + 1, fs, sp, dp => mergeList fuel fs sp dp (fs.childNames sp)

/-- The `for src_item in src_dir.iterdir()` loop of
`_merge_directories`, over the listed child names. -/
def mergeList : Nat → FS → Path → Path → List Name → FS
  | _, fs, _, _, [] => fs
  | 0, fs, _, _, _ :: _ => fs
  | fuel + 1, fs, sp, dp, nm :: rest =>
      mergeList fuel (mergeItem fuel fs sp dp nm) sp dp rest

/-- One iteration of the `_merge_directories` loop: a subdirectory is
recursively merged (or `copytree`d when nothing exists at the
destination); a file is `copy2`d directly, or under the first free
suffixed name when the destination name is taken. -/
def mergeItem : Nat → FS → Path → Path → Name → FS
  | 0, fs, _, _, _ => fs
  | fuel + 1, fs, sp, dp, nm =>
    let srcItem := sp ++ [nm]
    let destItem := dp ++ [nm]
    if fs.isDirAt srcItem then
      if fs.existsAt destItem then mergeDirs fuel fs srcItem destItem
      else fs.copytree srcItem destItem
    else
      match fs.get srcItem with
      | some c =>
        if fs.existsAt destItem then
          match findFree fs dp (splitName nm).1 (splitName nm).2 fuel 1 with
          | some q => fs.insert q c
          | none => fs
        else fs.insert destItem c
      | none => fs

end

/-- Python `str.isdigit` on a component name (ASCII digits;
the empty string is not a digit string). -/
def isDigitName (nm : Name) : Bool :=
  decide (nm ≠ "") && nm.data.all Char.isDigit

/-- `import_to_darktable`: for every all-digit year directory under the
organized staging root `orgDir`, merge it into the persistent library
`libDir` when the destination year exists, else copy it wholesale.  In
the source `orgDir` is `stage_dir/"organized"` and `libDir` is
`/data/Photography`; the stage returns without effect when `orgDir`
does not exist. -/
def importToDarktable (fuel : Nat) (fs : FS) (orgDir libDir : Path) : FS :=
  if fs.existsAt orgDir then
    (fs.childNames orgDir).foldl (fun acc nm =>
      if acc.isDirAt (orgDir ++ [nm]) && isDigitName nm then
        if acc.existsAt (libDir ++ [nm]) then
          mergeDirs fuel acc (orgDir ++ [nm]) (libDir ++ [nm])
        else acc.copytree (orgDir ++ [nm]) (libDir ++ [nm])
      else acc) fs
  else fs

/-! ### Python string primitives

The Python string operations the pipeline uses (`str.strip`,
`str.split`, substring membership `in`) are modelled directly over
`List Char`, with Python's semantics: `split` cuts at each
non-overlapping occurrence of a non-empty separator, left to right;
`strip` removes whitespace from both ends. -/

/-- `True` iff `sep` is an initial segment of `cs`. -/
def startsWithSeq : List Char → List Char → Bool
  | [], _ => true
  | _ :: _, [] => false
  | s :: ss, c :: cc => c = s && startsWithSeq ss cc

/-- Python `sub in s` on character lists. -/
def containsSeq (sep : List Char) : List Char → Bool
  | [] => startsWithSeq sep []
  | c :: rest => startsWithSeq sep (c :: rest) || containsSeq sep rest

/-- Python `sub in s`. -/
def pyContains (s sub : String) : Bool :=
  containsSeq sub.data s.data

/-- Accumulator loop of Python `str.split` for the non-empty separator
`s0 :: ss`: cut at each leftmost occurrence.  The `Nat` argument is a
structural bound on the number of characters still to scan; every step
consumes at least one character, so a bound equal to the input length
(as passed by `pySplit`) is never exhausted. -/
def pySplitAux (s0 : Char) (ss : List Char) :
    Nat → List Char → List Char → List (List Char)
  | _, [], acc => [acc.reverse]
  | 0, _ :: _, acc => [acc.reverse]
  | f + 1, c :: rest, acc =>
    if startsWithSeq (s0 :: ss) (c :: rest) then
      acc.reverse :: pySplitAux s0 ss f ((c :: rest).drop (ss.length + 1)) []
    else pySplitAux s0 ss f rest (c :: acc)

/-- Python `s.split(sep)` for a non-empty separator (the pipeline only
splits on the separators `"\n\n"`, `"\n"` and `": "`). -/
def pySplit (s sep : String) : List String :=
  match sep.data with
  | [] => [s]
  | s0 :: ss => (pySplitAux s0 ss s.data.length s.data []).map (fun cs => ⟨cs⟩)

/-- Python `str.strip()` on character lists (whitespace both ends). -/
def pyStripChars (cs : List Char) : List Char :=
  ((cs.dropWhile Char.isWhitespace).reverse.dropWhile Char.isWhitespace).reverse

/-- Python `str.strip()`. -/
def pyStrip (s : String) : String :=
  ⟨pyStripChars s.data⟩

/-- Python `s.split(sep, 1)[1]`: everything after the first occurrence
of `sep`; `none` models the `IndexError` raised when `sep` is absent. -/
def pySplitOnceAfter (s sep : String) : Option String :=
  match pySplit s sep with
  | [] => none
  | [_] => none
  | _ :: r1 :: rs => some (String.intercalate sep (r1 :: rs))

/-! ### Temporal Organizer (`organize_by_date` / `_get_photo_date`)

`_get_photo_date` runs exiftool and parses its `Date/Time Original`
line with `datetime.strptime(…, "%Y:%m:%d %H:%M:%S")`; any parse
failure (ValueError), tool absence or timeout falls back to the file's
modification time.  The exiftool invocation is an oracle
`Option (Nat × String)` of (return code, stdout); `none` models a
missing tool or a timeout.  `strptime` is modelled after CPython's
`_strptime` regexes for `%Y %m %d %H %M %S` (fixed 4-digit year,
1–2 digit numeric fields with the documented ranges, full-string
anchor) followed by the `datetime` constructor's range validation. -/

/-- A parsed wall-clock datetime (the fields of a Python `datetime`
the pipeline uses). -/
structure PyDatetime where
  year : Nat
  month : Nat
  day : Nat
  hour : Nat
  minute : Nat
  second : Nat
deriving DecidableEq, Repr

instance exceptDecEq {ε α : Type} [DecidableEq ε] [DecidableEq α] :
    DecidableEq (Except ε α) := fun a b =>
  match a, b with
  | Except.error e1, Except.error e2 => decidable_of_iff (e1 = e2) (by simp)
  | Except.ok a1, Except.ok a2 => decidable_of_iff (a1 = a2) (by simp)
  | Except.error _, Except.ok _ => isFalse (by simp)
  | Except.ok _, Except.error _ => isFalse (by simp)

/-- Numeric value of an ASCII digit. -/
def digitVal? (c : Char) : Option Nat :=
  if c.isDigit then some (c.toNat - 48) else none

/-- Two-digit field candidate with the given inclusive value range
(one alternative of a CPython strptime field regex). -/
def twoDigitCand (lo hi : Nat) : List Char → List (Nat × List Char)
  | c1 :: c2 :: rest =>
    match digitVal? c1, digitVal? c2 with
    | some a, some b =>
      let v := 10 * a + b
      if lo ≤ v ∧ v ≤ hi then [(v, rest)] else []
    | _, _ => []
  | _ => []

/-- One-digit field candidate with the given inclusive value range. -/
def oneDigitCand (lo hi : Nat) : List Char → List (Nat × List Char)
  | c :: rest =>
    match digitVal? c with
    | some v => if lo ≤ v ∧ v ≤ hi then [(v, rest)] else []
    | none => []
  | [] => []

/-- Candidates for `%m` (`1[0-2]|0[1-9]|[1-9]`), in regex priority
order. -/
def monthCands (cs : List Char) : List (Nat × List Char) :=
  twoDigitCand 1 12 cs ++ oneDigitCand 1 9 cs

/-- Candidates for `%d` (`3[01]|[12]\d|0[1-9]|[1-9]`). -/
def dayCands (cs : List Char) : List (Nat × List Char) :=
  twoDigitCand 1 31 cs ++ oneDigitCand 1 9 cs

/-- Candidates for `%H` (`2[0-3]|[0-1]\d|\d`). -/
def hourCands (cs : List Char) : List (Nat × List Char) :=
  twoDigitCand 0 23 cs ++ oneDigitCand 0 9 cs

/-- Candidates for `%M` (`[0-5]\d|\d`). -/
def minuteCands (cs : List Char) : List (Nat × List Char) :=
  twoDigitCand 0 59 cs ++ oneDigitCand 0 9 cs

/-- Candidates for `%S` (`6[0-1]|[0-5]\d|\d`). -/
def secondCands (cs : List Char) : List (Nat × List Char) :=
  twoDigitCand 0 61 cs ++ oneDigitCand 0 9 cs

/-- Regex backtracking over field candidates: try each alternative in
priority order until the continuation succeeds. -/
def tryCands {α : Type} (cands : List (Nat × List Char))
    (k : Nat → List Char → Option α) : Option α :=
  match cands with
  | [] => none
  | (v, rest) :: more =>
    match k v rest with
    | some r => some r
    | none => tryCands more k

/-- The regex phase of
`datetime.strptime(s, "%Y:%m:%d %H:%M:%S")`: a full-string match of
year, month, day, hour, minute, second with literal separators. -/
def strptimeYmdHMS (s : String) : Option PyDatetime :=
  match s.data with
  | c1 :: c2 :: c3 :: c4 :: ':' :: r1 =>
    match digitVal? c1, digitVal? c2, digitVal? c3, digitVal? c4 with
    | some a, some b, some c, some d =>
      tryCands (monthCands r1) (fun mo r2 =>
        match r2 with
        | ':' :: r3 =>
          tryCands (dayCands r3) (fun dy r4 =>
            match r4 with
            | ' ' :: r5 =>
              tryCands (hourCands r5) (fun hh r6 =>
                match r6 with
                | ':' :: r7 =>
                  tryCands (minuteCands r7) (fun mi r8 =>
                    match r8 with
                    | ':' :: r9 =>
                      tryCands (secondCands r9) (fun sc r10 =>
                        match r10 with
                        | [] => some
                            ⟨1000 * a + 100 * b + 10 * c + d,
                              mo, dy, hh, mi, sc⟩
                        | _ :: _ => none)
                    | _ => none)
                | _ => none)
            | _ => none)
        | _ => none)
    | _, _, _, _ => none
  | _ => none

/-- Gregorian leap-year rule (Python `calendar.isleap`). -/
def isLeapYear (y : Nat) : Bool :=
  (y % 4 = 0 && decide (y % 100 ≠ 0)) || y % 400 = 0

/-- Days in a month (what Python's `datetime` constructor checks the
day against). -/
def daysInMonth (y m : Nat) : Nat :=
  if m = 2 then (if isLeapYear y then 29 else 28)
  else if m = 4 ∨ m = 6 ∨ m = 9 ∨ m = 11 then 30
  else 31

/-- The range validation of the Python `datetime` constructor. -/
def validDatetime (d : PyDatetime) : Bool :=
  1 ≤ d.year && d.year ≤ 9999 && 1 ≤ d.month && d.month ≤ 12 &&
  1 ≤ d.day && d.day ≤ daysInMonth d.year d.month &&
  d.hour ≤ 23 && d.minute ≤ 59 && d.second ≤ 59

/-- `datetime.strptime(s, "%Y:%m:%d %H:%M:%S")`; `none` models the
`ValueError` the code catches. -/
def pyStrptime (s : String) : Option PyDatetime :=
  match strptimeYmdHMS s with
  | some d => if validDatetime d then some d else none
  | none => none

/-- `_get_photo_date`: when exiftool (oracle `exifResult`: return code
and stdout, `none` = missing tool or timeout) exits 0 and its output
mentions the original-capture field, parse the text after the first
`": "` of the stripped output; on a parse failure fall back silently to
the file's modification time `mtime`.  `Except.error` models the
uncaught `IndexError` of `split(": ", 1)[1]` when no `": "` occurs. -/
def getPhotoDate (exifResult : Option (Nat × String))
    (mtime : PyDatetime) : Except Unit PyDatetime :=
  match exifResult with
  | some (rc, out) =>
    if rc = 0 && pyContains out "Date/Time Original" then
      match pySplitOnceAfter (pyStrip out) ": " with
      | none => Except.error ()
      | some dateStr =>
        match pyStrptime dateStr with
        | some d => Except.ok d
        | none => Except.ok mtime
    else Except.ok mtime
  | none => Except.ok mtime

/-- Python `f"{n:02d}"`. -/
def pad2 (n : Nat) : Name :=
  if n < 10 then "0" ++ toString n else toString n

/-- Body of the per-file loop of `organize_by_date`: resolve the
photo's date, then move it to
`organized/YYYY/MM/DD/name`.  `orgFail` models a per-file I/O
exception (stat, mkdir or move); together with a date-resolution
`IndexError` it is caught by the loop's `except` and leaves the file
untouched. -/
def organizeFile (exifResult : Option (Nat × String)) (mtime : PyDatetime)
    (orgFail : Bool) (orgDir : Path) (fs : FS) (f : Path) (nm : Name) : FS :=
  if orgFail then fs
  else
    match getPhotoDate exifResult mtime with
    | Except.error _ => fs
    | Except.ok d =>
        fs.move f (orgDir ++ [toString d.year, pad2 d.month, pad2 d.day, nm])

/-- One iteration of the per-file loop of `organize_by_date` inside
photo directory `pd`: regular files are organized, everything else is
skipped (`photo_file.is_file()`). -/
def orgStep (exif : Path → Option (Nat × String))
    (mtime : Path → PyDatetime) (orgFail : Path → Bool)
    (orgBase pd : Path) (a : FS) (nm : Name) : FS :=
  if a.isFileAt (pd ++ [nm]) then
    organizeFile (exif (pd ++ [nm])) (mtime (pd ++ [nm]))
      (orgFail (pd ++ [nm])) orgBase a (pd ++ [nm]) nm
  else a

/-- `organize_by_date`: on a dry run, do nothing; otherwise walk the
files directly inside `raw_photos` and `processed_photos` (skipping a
directory that does not exist) and organize each regular file.  The
oracles give each file's exiftool result, modification time and
failure status. -/
def organizeByDate (exif : Path → Option (Nat × String))
    (mtime : Path → PyDatetime) (orgFail : Path → Bool)
    (dryRun : Bool) (stageDir : Path) (fs : FS) : FS :=
  if dryRun then fs
  else
    [stageDir ++ ["raw_photos"], stageDir ++ ["processed_photos"]].foldl
      (fun acc pd =>
        if acc.existsAt pd then
          (acc.childNames pd).foldl
            (orgStep exif mtime orgFail (stageDir ++ ["organized"]) pd) acc
        else acc) fs

/-! ### Statistics (`ConsolidationStats`) -/

/-- The run statistics dictionary `self.stats` (the floating-point
total-size field is omitted: no claim concerns it). -/
structure Stats where
  filesFound : Nat
  duplicatesFound : Nat
  filesCopied : Nat
  errors : List String
deriving DecidableEq, Repr

/-! ### Duplicate Resolver (`run_jdupes_deduplication` /
`_handle_duplicates`)

The detector's machine-readable output is a string: blocks of paths
separated by blank lines.  Paths here are plain strings (as handed to
`Path(...)` by the code), so this stage works on a flat string-keyed
filesystem. -/

/-- A flat filesystem keyed by full path strings. -/
structure SFS where
  files : List (String × Nat)
deriving DecidableEq, Repr

namespace SFS

/-- Content of the file at `p`, if any (first binding wins). -/
def get (fs : SFS) (p : String) : Option Nat :=
  (fs.files.find? (fun e => e.1 = p)).map (·.2)

/-- Remove every binding at path `p`. -/
def erase (fs : SFS) (p : String) : SFS :=
  ⟨fs.files.filter (fun e => ¬ e.1 = p)⟩

/-- `shutil.move src dst` for files: the source binding disappears and
`dst` holds the moved content, replacing any file previously at `dst`
(POSIX rename semantics — an existing quarantine file of the same name
is silently destroyed). -/
def move (fs : SFS) (src dst : String) : SFS :=
  match fs.get src with
  | some c => ⟨(dst, c) :: ((fs.erase src).erase dst).files⟩
  | none => fs

end SFS

/-- Python `Path(s).name`: the last non-empty `/`-separated
component. -/
def baseName (s : String) : String :=
  ((pySplit s "/").filter (fun c => decide (c ≠ ""))).getLastD ""

/-- The quarantine destination
`str(self.stage_dir / "duplicates" / name)`. -/
def quarantinePath (stageDir nm : String) : String :=
  stageDir ++ "/duplicates/" ++ nm

/-- One iteration of the inner loop of `_handle_duplicates` over a
non-first group member `line`: skip it when the path no longer exists;
otherwise move it into `duplicates/` under its base filename, counting
it as moved.  A `shutil.move` exception (oracle `fail`) is caught and
logged — the file stays, nothing is counted, and no error is
recorded. -/
def moveDup (fail : String → Bool) (stageDir : String)
    (st : SFS × Nat) (line : String) : SFS × Nat :=
  let p := pyStrip line
  if (st.1.get p).isSome then
    if fail p then st
    else (st.1.move p (quarantinePath stageDir (baseName p)), st.2 + 1)
  else st

/-- One iteration of the outer loop of `_handle_duplicates` over one
detector output block: skip blank groups and groups with fewer than
two lines; otherwise keep the first line untouched and quarantine the
rest. -/
def handleGroup (fail : String → Bool) (stageDir : String)
    (st : SFS × Nat) (group : String) : SFS × Nat :=
  if pyStrip group = "" then st
  else
    let files := pySplit (pyStrip group) "\n"
    if files.length < 2 then st
    else (files.drop 1).foldl (moveDup fail stageDir) st

/-- `_handle_duplicates(jdupes_output)`: split the stripped output into
blank-line-separated groups and quarantine every non-first member of
each; returns the filesystem and the number of files moved. -/
def handleDuplicates (fail : String → Bool) (stageDir : String)
    (out : String) (fs : SFS) : SFS × Nat :=
  (pySplit (pyStrip out) "\n\n").foldl (handleGroup fail stageDir) (fs, 0)

/-- The `duplicates_found` statistic computed in
`run_jdupes_deduplication`: over the stripped stdout's blank-line
blocks, sum `len(group.split('\n')) - 1` for every block whose
stripped text is non-empty (the lines of the unstripped block text
are counted). -/
def duplicatesFoundStat (out : String) : Nat :=
  ((pySplit (pyStrip out) "\n\n").filter
    (fun g => decide (pyStrip g ≠ ""))).foldl
    (fun acc g => acc + ((pySplit g "\n").length - 1)) 0

/-- Outcome of the `subprocess.run` invocation of jdupes. -/
inductive JdupesResult where
  | completed (returncode : Nat) (stdout : String) (stderr : String)
  | timeout
  | missingBinary
deriving DecidableEq, Repr

/-- `run_jdupes_deduplication`: skipped on a dry run; on a completed
run with exit code 0, record the count parsed from stdout as
`duplicates_found` and quarantine via `_handle_duplicates` (which
never touches the error list); a non-zero exit, a timeout or a missing
binary appends one error and skips deduplication. -/
def runJdupesDeduplication (fail : String → Bool) (stageDir : String)
    (res : JdupesResult) (dryRun : Bool) (fs : SFS) (stats : Stats) :
    SFS × Stats :=
  if dryRun then (fs, stats)
  else
    match res with
    | JdupesResult.completed rc out err =>
      if rc = 0 then
        ((handleDuplicates fail stageDir out fs).1,
         { stats with duplicatesFound := duplicatesFoundStat out })
      else
        (fs, { stats with errors :=
          stats.errors ++ ["jdupes failed: " ++ err] })
    | JdupesResult.timeout =>
      (fs, { stats with errors :=
        stats.errors ++ ["jdupes timed out after 1 hour"] })
    | JdupesResult.missingBinary =>
      (fs, { stats with errors :=
        stats.errors ++
          ["jdupes not installed. Install with: sudo apt install jdupes"] })

/-! ### Staging Materializer (`_copy_photos_from_source`) -/

/-- Raw-photo extensions (`__init__` configuration constants). -/
def rawExtensions : List String :=
  [".cr2", ".raw", ".dng", ".nef", ".arw", ".orf", ".rw2"]

/-- All photo extensions. -/
def photoExtensions : List String :=
  rawExtensions ++ [".jpg", ".jpeg", ".tif", ".tiff", ".png", ".bmp"]

/-- Video extensions. -/
def videoExtensions : List String :=
  [".mp4", ".mov", ".avi", ".mkv", ".m4v", ".3gp"]

/-- Python `str.lower` (character-wise). -/
def pyLower (s : String) : String :=
  ⟨s.data.map Char.toLower⟩

/-- Destination staging subdirectory of a file by its lower-cased
extension: `raw_photos`, `processed_photos`, `videos`, or `none` for a
silently skipped file. -/
def destSubdir (fileName : String) : Option String :=
  let ext := pyLower (splitName fileName).2
  if photoExtensions.contains ext then
    if rawExtensions.contains ext then some "raw_photos"
    else some "processed_photos"
  else if videoExtensions.contains ext then some "videos"
  else none

/-- One iteration of the copy loop of `_copy_photos_from_source` over
a walked file (name, content): classify by extension (silently
skipping unclassified files), then `copy2` to
`stage/subdir/{source_name}_{filename}`.  A copy failure (oracle
`fail`) appends its message to the error list and the loop continues
with the next file; on a dry run the copy is skipped but the counter
still increments. -/
def copyOneFromSource (fail : String → Bool) (dryRun : Bool)
    (stageDir : Path) (srcName : String) (st : FS × Stats)
    (f : String × Nat) : FS × Stats :=
  match destSubdir f.1 with
  | none => st
  | some subdir =>
    if dryRun then
      (st.1, { st.2 with filesCopied := st.2.filesCopied + 1 })
    else if fail f.1 then
      (st.1, { st.2 with errors :=
        st.2.errors ++ ["Failed to copy " ++ f.1] })
    else
      ((st.1.erase (stageDir ++ [subdir, srcName ++ "_" ++ f.1])).insert
         (stageDir ++ [subdir, srcName ++ "_" ++ f.1]) f.2,
       { st.2 with filesCopied := st.2.filesCopied + 1 })

/-- `_copy_photos_from_source`: fold the copy loop over the files the
walk of one source yields. -/
def copyPhotosFromSource (fail : String → Bool) (dryRun : Bool)
    (stageDir : Path) (srcName : String) (files : List (String × Nat))
    (fs : FS) (stats : Stats) : FS × Stats :=
  files.foldl (copyOneFromSource fail dryRun stageDir srcName) (fs, stats)

/-! ### Command surface (`main`) -/

/-- What `main()` does for a given `--step` value. -/
inductive MainAction where
  | printDiscover
  | fullRun
  | stepNotImplemented (step : String)
deriving DecidableEq, Repr

/-- The advertised argparse `--step` choices. -/
def stepChoices : List String :=
  ["discover", "gather", "dedupe", "organize", "import", "all"]

/-- The dispatch of `main()`: `discover` prints the discovery mapping,
`all` runs the full pipeline, and every other advertised step value
falls into the `else` branch that logs `not implemented yet` and
performs no stage work. -/
def mainDispatch (step : String) : MainAction :=
  if step = "discover" then MainAction.printDiscover
  else if step = "all" then MainAction.fullRun
  else MainAction.stepNotImplemented step

/-! ### Dry-run effect trace (`run_full_consolidation`)

For the dry-run claim the pipeline is modelled at the level of its
non-log filesystem effects (the spec places log output out of scope).
Discovery is read-only; each mutating stage checks `self.dry_run`; the
report is written unconditionally by `generate_report`. -/

/-- A filesystem mutation the pipeline can perform. -/
inductive FsEffect where
  | mkdirEff (p : Path)
  | copyEff (dest : Path)
  | reportWriteEff (path : String)
deriving DecidableEq, Repr

/-- `prepare_staging_area`: outside dry runs, create the staging root
and its four subdirectories. -/
def prepareStagingAreaEffects (dryRun : Bool) (stageDir : Path) :
    List FsEffect :=
  if dryRun then []
  else [FsEffect.mkdirEff stageDir,
        FsEffect.mkdirEff (stageDir ++ ["raw_photos"]),
        FsEffect.mkdirEff (stageDir ++ ["processed_photos"]),
        FsEffect.mkdirEff (stageDir ++ ["videos"]),
        FsEffect.mkdirEff (stageDir ++ ["duplicates"])]

/-- Filesystem effects of `gather_all_photos`: one copy per classified
file of each discovered source; on a dry run the walk and counting
still happen but no copy is performed. -/
def gatherAllPhotosEffects (dryRun : Bool) (stageDir : Path)
    (sources : List (String × List (String × Nat))) : List FsEffect :=
  sources.flatMap (fun src =>
    src.2.filterMap (fun f =>
      match destSubdir f.1 with
      | some subdir =>
        if dryRun then none
        else some (FsEffect.copyEff
          (stageDir ++ [subdir, src.1 ++ "_" ++ f.1]))
      | none => none))

/-- The fixed report path of `generate_report`. -/
def reportFilePath : String := "/tmp/photo_consolidation_report.json"

/-- Non-log filesystem effects of `run_full_consolidation`:
deduplication, organization and import return early on a dry run
(their non-dry effects are abstract parameters); `generate_report`
writes the report file unconditionally at the end. -/
def runFullConsolidationEffects (dryRun : Bool) (stageDir : Path)
    (sources : List (String × List (String × Nat)))
    (dedupeEffects organizeEffects importEffects : List FsEffect) :
    List FsEffect :=
  prepareStagingAreaEffects dryRun stageDir ++
  gatherAllPhotosEffects dryRun stageDir sources ++
  (if dryRun then [] else dedupeEffects) ++
  (if dryRun then [] else organizeEffects) ++
  (if dryRun then [] else importEffects) ++
  [FsEffect.reportWriteEff reportFilePath]

/-! ## Theorems -/

theorem FS.get_insert (fs : FS) (p q : Path) (c : Nat) :
    (fs.insert q c).get p = if p = q then some c else fs.get p := by
  simp only [FS.insert, FS.get, List.find?]
  by_cases h : p = q
  · simp [h]
  · simp only [h, if_false]
    have : (decide (q = p)) = false := by
      simp [eq_comm] at h ⊢
      exact h
    simp [this]

theorem find_filter_ne {κ : Type} [DecidableEq κ] (p q : κ)
    (l : List (κ × Nat)) :
    List.find? (fun e => e.1 = p) (l.filter (fun e => ¬ e.1 = q)) =
      if p = q then none else List.find? (fun e => e.1 = p) l := by
  induction l with
  | nil => by_cases h : p = q <;> simp [h]
  | cons e es ih =>
    by_cases he : e.1 = q
    · have step : (e :: es).filter (fun e => ¬ e.1 = q) =
          es.filter (fun e => ¬ e.1 = q) := by
        simp [List.filter_cons, he]
      rw [step, ih]
      by_cases h : p = q
      · simp [h]
      · have hep : (decide (e.1 = p)) = false := by
          simp only [decide_eq_false_iff_not]
          rw [he]; exact fun hh => h hh.symm
        simp [List.find?_cons, h, hep]
    · have step : (e :: es).filter (fun e => ¬ e.1 = q) =
          e :: es.filter (fun e => ¬ e.1 = q) := by
        simp [List.filter_cons, he]
      rw [step]
      by_cases hep : e.1 = p
      · by_cases h : p = q
        · exact absurd (hep.trans h) he
        · simp [List.find?_cons, hep, h]
      · simp only [List.find?_cons, decide_eq_false hep, ih]

theorem FS.get_erase (fs : FS) (p q : Path) :
    (fs.erase q).get p = if p = q then none else fs.get p := by
  simp only [FS.erase, FS.get, find_filter_ne]
  by_cases h : p = q <;> simp [h]

theorem FS.get_move (fs : FS) (src dst p : Path) (c : Nat)
    (hsrc : fs.get src = some c) :
    (fs.move src dst).get p =
      if p = dst then some c else if p = src then none else fs.get p := by
  simp only [FS.move, hsrc, FS.get_insert, FS.get_erase]
  by_cases h1 : p = dst
  · simp [h1]
  · by_cases h2 : p = src <;> simp [h1, h2]

theorem FS.existsAt_of_get_some (fs : FS) (p : Path) (c : Nat)
    (h : fs.get p = some c) : fs.existsAt p = true := by
  simp [FS.existsAt, FS.isFileAt, h]

theorem FS.exists_entry_of_get_some (fs : FS) (p : Path) (c : Nat)
    (h : fs.get p = some c) : ∃ e ∈ fs.files, e.1 = p ∧ e.2 = c := by
  simp only [FS.get] at h
  rcases ho : fs.files.find? (fun e => e.1 = p) with _ | e
  · rw [ho] at h; simp at h
  · rw [ho] at h
    refine ⟨e, List.mem_of_find?_eq_some ho, ?_, ?_⟩
    · have := List.find?_some ho
      simpa using this
    · simpa using h

/-- Copying a tree to a fresh destination preserves every existing
binding. -/
theorem FS.get_copytree (fs : FS) (src dst p : Path) (c : Nat)
    (hdst : fs.existsAt dst = false) (hp : fs.get p = some c) :
    (fs.copytree src dst).get p = some c := by
  have hfile : fs.isFileAt dst = false := by
    simp only [FS.existsAt, Bool.or_eq_false_iff] at hdst
    exact hdst.1
  have hdir : fs.isDirAt dst = false := by
    simp only [FS.existsAt, Bool.or_eq_false_iff] at hdst
    exact hdst.2
  simp only [FS.copytree, FS.get]
  rw [List.find?_append]
  have hnone : List.find? (fun e => e.1 = p)
      (fs.files.filterMap (fun e =>
        if e.1.take src.length = src then
          some (dst ++ e.1.drop src.length, e.2)
        else none)) = none := by
    rw [List.find?_eq_none]
    intro x hx hpred
    rw [List.mem_filterMap] at hx
    obtain ⟨e, _, hfe⟩ := hx
    by_cases htake : e.1.take src.length = src
    · rw [if_pos htake] at hfe
      have hx1 : x.1 = dst ++ e.1.drop src.length := by
        have := Option.some.inj hfe
        rw [← this]
      have hxp : x.1 = p := by simpa using hpred
      rcases hrel : e.1.drop src.length with _ | ⟨r, rs⟩
      · -- the copied path is `dst` itself; but then `dst` was a file
        have : p = dst := by
          rw [← hxp, hx1, hrel, List.append_nil]
        rw [this] at hp
        simp [FS.isFileAt, hp] at hfile
      · -- the copied path lies strictly below `dst`; but then `dst`
        -- was a directory
        obtain ⟨e0, he0mem, he0p, _⟩ := FS.exists_entry_of_get_some fs p c hp
        have hpd : p = dst ++ (r :: rs) := by rw [← hxp, hx1, hrel]
        have : fs.isDirAt dst = true := by
          simp only [FS.isDirAt, List.any_eq_true]
          refine ⟨e0, he0mem, ?_⟩
          rw [he0p, hpd]
          simp [List.take_left, List.length_append]
        rw [this] at hdir
        exact absurd hdir (by simp)
    · rw [if_neg htake] at hfe
      exact absurd hfe (by simp)
  rw [hnone]
  simpa [FS.get] using hp

/-- A name returned by the conflict loop does not exist yet. -/
theorem findFree_not_exists (fs : FS) (destDir : Path) (stem ext : Name) :
    ∀ fuel k q, findFree fs destDir stem ext fuel k = some q →
      fs.existsAt q = false := by
  intro fuel
  induction fuel with
  | zero => intro k q h; simp [findFree] at h
  | succ n ih =>
    intro k q h
    simp only [findFree] at h
    by_cases hc : fs.existsAt (destDir ++ [suffixedName stem ext k]) = true
    · rw [if_pos hc] at h
      exact ih _ _ h
    · rw [if_neg hc] at h
      have hq : destDir ++ [suffixedName stem ext k] = q := by
        simpa using h
      rw [← hq]
      simpa using hc

/-- The conflict loop returns the first unused suffixed name: some
index `k ≥ start` whose name is free while every index in
`[start, k)` is taken. -/
theorem findFree_least (fs : FS) (destDir : Path) (stem ext : Name) :
    ∀ fuel start q, findFree fs destDir stem ext fuel start = some q →
      ∃ k, start ≤ k ∧ q = destDir ++ [suffixedName stem ext k] ∧
        fs.existsAt (destDir ++ [suffixedName stem ext k]) = false ∧
        ∀ j, start ≤ j → j < k →
          fs.existsAt (destDir ++ [suffixedName stem ext j]) = true := by
  intro fuel
  induction fuel with
  | zero => intro start q h; simp [findFree] at h
  | succ n ih =>
    intro start q h
    simp only [findFree] at h
    by_cases hc : fs.existsAt (destDir ++ [suffixedName stem ext start]) = true
    · rw [if_pos hc] at h
      obtain ⟨k, hk1, hk2, hk3, hk4⟩ := ih _ _ h
      refine ⟨k, by omega, hk2, hk3, ?_⟩
      intro j hj1 hj2
      rcases Nat.eq_or_lt_of_le hj1 with hj | hj
      · rw [← hj]; exact hc
      · exact hk4 j hj hj2
    · rw [if_neg hc] at h
      have hq : destDir ++ [suffixedName stem ext start] = q := by
        simpa using h
      exact ⟨start, Nat.le_refl _, hq.symm, by simpa using hc,
        fun j hj1 hj2 => absurd (Nat.lt_of_le_of_lt hj1 hj2)
          (Nat.lt_irrefl _)⟩

theorem mergeDirs_zero (fs : FS) (sp dp : Path) :
    mergeDirs 0 fs sp dp = fs := rfl

theorem mergeDirs_succ (n : Nat) (fs : FS) (sp dp : Path) :
    mergeDirs (n + 1) fs sp dp = mergeList n fs sp dp (fs.childNames sp) :=
  rfl

theorem mergeList_nil (fuel : Nat) (fs : FS) (sp dp : Path) :
    mergeList fuel fs sp dp [] = fs := by
  cases fuel <;> rfl

theorem mergeList_zero (fs : FS) (sp dp : Path) (l : List Name) :
    mergeList 0 fs sp dp l = fs := by
  cases l <;> rfl

theorem mergeList_succ_cons (n : Nat) (fs : FS) (sp dp : Path)
    (nm : Name) (rest : List Name) :
    mergeList (n + 1) fs sp dp (nm :: rest) =
      mergeList n (mergeItem n fs sp dp nm) sp dp rest := rfl

theorem mergeItem_zero (fs : FS) (sp dp : Path) (nm : Name) :
    mergeItem 0 fs sp dp nm = fs := rfl

theorem mergeItem_succ (n : Nat) (fs : FS) (sp dp : Path) (nm : Name) :
    mergeItem (n + 1) fs sp dp nm =
      if fs.isDirAt (sp ++ [nm]) then
        if fs.existsAt (dp ++ [nm]) then
          mergeDirs n fs (sp ++ [nm]) (dp ++ [nm])
        else fs.copytree (sp ++ [nm]) (dp ++ [nm])
      else
        match fs.get (sp ++ [nm]) with
        | some c =>
          if fs.existsAt (dp ++ [nm]) then
            match findFree fs dp (splitName nm).1 (splitName nm).2 n 1 with
            | some q => fs.insert q c
            | none => fs
          else fs.insert (dp ++ [nm]) c
        | none => fs := rfl

/-- Core safety lemma of the Merge Engine: none of the three mutually
recursive merge functions ever removes or overwrites an existing file —
every copy lands at a path that did not exist before it. -/
theorem merge_preserves : ∀ fuel : Nat,
    (∀ fs sp dp p c, fs.get p = some c →
      (mergeDirs fuel fs sp dp).get p = some c) ∧
    (∀ fs sp dp l p c, fs.get p = some c →
      (mergeList fuel fs sp dp l).get p = some c) ∧
    (∀ fs sp dp nm p c, fs.get p = some c →
      (mergeItem fuel fs sp dp nm).get p = some c) := by
  intro fuel
  induction fuel with
  | zero =>
    refine ⟨?_, ?_, ?_⟩
    · intro fs sp dp p c h; simpa [mergeDirs_zero] using h
    · intro fs sp dp l p c h; simpa [mergeList_zero] using h
    · intro fs sp dp nm p c h; simpa [mergeItem_zero] using h
  | succ n ih =>
    obtain ⟨ihD, ihL, ihI⟩ := ih
    refine ⟨?_, ?_, ?_⟩
    · intro fs sp dp p c h
      rw [mergeDirs_succ]
      exact ihL _ _ _ _ _ _ h
    · intro fs sp dp l p c h
      cases l with
      | nil => simpa [mergeList_nil] using h
      | cons nm rest =>
        rw [mergeList_succ_cons]
        exact ihL _ _ _ _ _ _ (ihI _ _ _ _ _ _ h)
    · intro fs sp dp nm p c h
      rw [mergeItem_succ]
      by_cases hd : fs.isDirAt (sp ++ [nm]) = true
      · rw [if_pos hd]
        by_cases he : fs.existsAt (dp ++ [nm]) = true
        · rw [if_pos he]; exact ihD _ _ _ _ _ h
        · rw [if_neg he]
          exact FS.get_copytree _ _ _ _ _
            (Bool.eq_false_iff.mpr he) h
      · rw [if_neg hd]
        rcases hg : fs.get (sp ++ [nm]) with _ | c0
        · exact h
        · simp only []
          by_cases he : fs.existsAt (dp ++ [nm]) = true
          · rw [if_pos he]
            rcases hq : findFree fs dp (splitName nm).1 (splitName nm).2 n 1
              with _ | q
            · exact h
            · have hqfree := findFree_not_exists fs dp
                (splitName nm).1 (splitName nm).2 n 1 q hq
              have hpq : p ≠ q := by
                intro hpq
                rw [← hpq] at hqfree
                rw [FS.existsAt_of_get_some fs p c h] at hqfree
                exact absurd hqfree (by simp)
              rw [FS.get_insert, if_neg hpq]
              exact h
          · rw [if_neg he]
            have hpq : p ≠ dp ++ [nm] := by
              intro hpq
              rw [← hpq] at he
              exact he (FS.existsAt_of_get_some fs p c h)
            rw [FS.get_insert, if_neg hpq]
            exact h

/-- The whole import stage (year-directory loop of
`import_to_darktable`) preserves every existing binding. -/
theorem importToDarktable_preserves (fuel : Nat) (fs : FS)
    (orgDir libDir p : Path) (c : Nat) (h : fs.get p = some c) :
    (importToDarktable fuel fs orgDir libDir).get p = some c := by
  rw [importToDarktable]
  by_cases horg : fs.existsAt orgDir = true
  · rw [if_pos horg]
    have hstep : ∀ (acc : FS) (nm : Name) (p : Path) (c : Nat),
        acc.get p = some c →
        (if acc.isDirAt (orgDir ++ [nm]) && isDigitName nm then
          if acc.existsAt (libDir ++ [nm]) then
            mergeDirs fuel acc (orgDir ++ [nm]) (libDir ++ [nm])
          else acc.copytree (orgDir ++ [nm]) (libDir ++ [nm])
        else acc).get p = some c := by
      intro acc nm p c hc
      by_cases h1 : (acc.isDirAt (orgDir ++ [nm]) && isDigitName nm) = true
      · rw [if_pos h1]
        by_cases h2 : acc.existsAt (libDir ++ [nm]) = true
        · rw [if_pos h2]
          exact (merge_preserves fuel).1 _ _ _ _ _ hc
        · rw [if_neg h2]
          exact FS.get_copytree _ _ _ _ _ (Bool.eq_false_iff.mpr h2) hc
      · rw [if_neg h1]; exact hc
    have hfold : ∀ (l : List Name) (acc : FS) (p : Path) (c : Nat),
        acc.get p = some c →
        (l.foldl (fun acc nm =>
          if acc.isDirAt (orgDir ++ [nm]) && isDigitName nm then
            if acc.existsAt (libDir ++ [nm]) then
              mergeDirs fuel acc (orgDir ++ [nm]) (libDir ++ [nm])
            else acc.copytree (orgDir ++ [nm]) (libDir ++ [nm])
          else acc) acc).get p = some c := by
      intro l
      induction l with
      | nil => intro acc p c hc; simpa using hc
      | cons nm rest irest =>
        intro acc p c hc
        simp only [List.foldl_cons]
        exact irest _ _ _ (hstep acc nm p c hc)
    exact hfold _ _ _ _ h
  · rw [if_neg horg]; exact h

/-- C1: every file that existed in the persistent library before the
Merge Engine ran (any path below the library root bound in the
filesystem) still exists afterwards at its original path with its
original content — no existing library file is overwritten or deleted,
in both the wholesale-copy branch (destination year absent) and the
recursive-merge branch (destination year present), and for every fuel
(i.e. along every prefix of the real run). -/
theorem claim_C1_merge_never_overwrites_or_deletes_library
    (fuel : Nat) (fs : FS) (orgDir libDir p : Path) (c : Nat)
    (hlib : p.take libDir.length = libDir)
    (h : fs.get p = some c) :
    (importToDarktable fuel fs orgDir libDir).get p = some c :=
  importToDarktable_preserves fuel fs orgDir libDir p c h

/-- Witness for C1: a concrete run over a library holding
`2020/03/15/IMG_01.jpg` while the staging area brings in a conflicting
file for the same bucket and a fresh `2019` year; the pre-existing
library file survives unchanged. -/
theorem claim_C1_witness :
    (["data","Photography","2020","03","15","IMG_01.jpg"].take
      (["data","Photography"] : Path).length = ["data","Photography"]) ∧
    (FS.mk [(["data","Photography","2020","03","15","IMG_01.jpg"], 1),
            (["mnt","staging","organized","2020","03","15","IMG_01.jpg"], 2),
            (["mnt","staging","organized","2019","07","04","pic.jpg"], 3)]).get
      ["data","Photography","2020","03","15","IMG_01.jpg"] = some 1 ∧
    (importToDarktable 12
      (FS.mk [(["data","Photography","2020","03","15","IMG_01.jpg"], 1),
              (["mnt","staging","organized","2020","03","15","IMG_01.jpg"], 2),
              (["mnt","staging","organized","2019","07","04","pic.jpg"], 3)])
      ["mnt","staging","organized"] ["data","Photography"]).get
      ["data","Photography","2020","03","15","IMG_01.jpg"] = some 1 :=
  ⟨by decide, by decide,
    claim_C1_merge_never_overwrites_or_deletes_library 12 _
      ["mnt","staging","organized"] ["data","Photography"] _ 1
      (by decide) (by decide)⟩

/-- C7: when the merge brings file `nm` into a bucket where the
destination name is taken, the incoming file is copied to the first
unused name `stem_k ext` (k = 1, 2, …), the pre-existing destination
file is untouched, and the incoming content is present under the
suffixed name — so both files exist after the merge. -/
theorem claim_C7_conflict_resolved_by_first_unused_suffix
    (fuel : Nat) (fs : FS) (sp dp : Path) (nm : Name) (c : Nat) (q : Path)
    (hdir : fs.isDirAt (sp ++ [nm]) = false)
    (hsrc : fs.get (sp ++ [nm]) = some c)
    (hconf : fs.existsAt (dp ++ [nm]) = true)
    (hfind : findFree fs dp (splitName nm).1 (splitName nm).2 fuel 1 = some q) :
    mergeItem (fuel + 1) fs sp dp nm = fs.insert q c ∧
    (fs.insert q c).get (dp ++ [nm]) = fs.get (dp ++ [nm]) ∧
    (fs.insert q c).get q = some c ∧
    ∃ k, 1 ≤ k ∧
      q = dp ++ [suffixedName (splitName nm).1 (splitName nm).2 k] ∧
      fs.existsAt q = false ∧
      ∀ j, 1 ≤ j → j < k →
        fs.existsAt (dp ++ [suffixedName (splitName nm).1 (splitName nm).2 j])
          = true := by
  have hqfree := findFree_not_exists fs dp
    (splitName nm).1 (splitName nm).2 fuel 1 q hfind
  have hqne : dp ++ [nm] ≠ q := by
    intro he
    rw [← he] at hqfree
    rw [hconf] at hqfree
    exact absurd hqfree (by simp)
  refine ⟨?_, ?_, ?_, ?_⟩
  · rw [mergeItem_succ]
    rw [if_neg (by simp [hdir])]
    rw [hsrc]
    simp only []
    rw [if_pos hconf, hfind]
  · rw [FS.get_insert, if_neg hqne]
  · rw [FS.get_insert, if_pos rfl]
  · obtain ⟨k, hk1, hk2, hk3, hk4⟩ := findFree_least fs dp
      (splitName nm).1 (splitName nm).2 fuel 1 q hfind
    exact ⟨k, hk1, hk2, by rw [hk2]; exact hk3, hk4⟩

/-- Witness for C7: the spec's scenario — the library already holds
`2020/03/15/IMG_01.jpg` (content 1) and the merge brings a different
`IMG_01.jpg` (content 2); the incoming file lands at `IMG_01_1.jpg`
and both are present afterwards. -/
theorem claim_C7_witness :
    (FS.mk [(["data","Photography","2020","03","15","IMG_01.jpg"], 1),
            (["mnt","staging","organized","2020","03","15","IMG_01.jpg"], 2)]).isDirAt
      (["mnt","staging","organized","2020","03","15"] ++ ["IMG_01.jpg"]) = false ∧
    (FS.mk [(["data","Photography","2020","03","15","IMG_01.jpg"], 1),
            (["mnt","staging","organized","2020","03","15","IMG_01.jpg"], 2)]).get
      (["mnt","staging","organized","2020","03","15"] ++ ["IMG_01.jpg"]) = some 2 ∧
    (FS.mk [(["data","Photography","2020","03","15","IMG_01.jpg"], 1),
            (["mnt","staging","organized","2020","03","15","IMG_01.jpg"], 2)]).existsAt
      (["data","Photography","2020","03","15"] ++ ["IMG_01.jpg"]) = true ∧
    findFree
      (FS.mk [(["data","Photography","2020","03","15","IMG_01.jpg"], 1),
              (["mnt","staging","organized","2020","03","15","IMG_01.jpg"], 2)])
      ["data","Photography","2020","03","15"]
      (splitName "IMG_01.jpg").1 (splitName "IMG_01.jpg").2 3 1 =
      some (["data","Photography","2020","03","15"] ++ ["IMG_01_1.jpg"]) ∧
    mergeItem 4
      (FS.mk [(["data","Photography","2020","03","15","IMG_01.jpg"], 1),
              (["mnt","staging","organized","2020","03","15","IMG_01.jpg"], 2)])
      ["mnt","staging","organized","2020","03","15"]
      ["data","Photography","2020","03","15"] "IMG_01.jpg" =
      (FS.mk [(["data","Photography","2020","03","15","IMG_01.jpg"], 1),
              (["mnt","staging","organized","2020","03","15","IMG_01.jpg"], 2)]).insert
        (["data","Photography","2020","03","15"] ++ ["IMG_01_1.jpg"]) 2 :=
  ⟨by decide, by decide, by decide, by decide,
    (claim_C7_conflict_resolved_by_first_unused_suffix 3 _
      ["mnt","staging","organized","2020","03","15"]
      ["data","Photography","2020","03","15"] "IMG_01.jpg" 2
      (["data","Photography","2020","03","15"] ++ ["IMG_01_1.jpg"])
      (by decide) (by decide) (by decide) (by decide)).1⟩

/-- C10: the import stage only copies from the organized staging tree,
never moves or deletes it — after the merge every file below the
organized staging root still exists unchanged at its organized path,
for every fuel. -/
theorem claim_C10_import_leaves_staging_intact
    (fuel : Nat) (fs : FS) (orgDir libDir p : Path) (c : Nat)
    (hstag : p.take orgDir.length = orgDir)
    (h : fs.get p = some c) :
    (importToDarktable fuel fs orgDir libDir).get p = some c :=
  importToDarktable_preserves fuel fs orgDir libDir p c h

/-- Witness for C10: after the concrete merge of `claim_C1_witness`,
the organized staging copy of `IMG_01.jpg` is still in place. -/
theorem claim_C10_witness :
    (["mnt","staging","organized","2020","03","15","IMG_01.jpg"].take
      (["mnt","staging","organized"] : Path).length =
      ["mnt","staging","organized"]) ∧
    (FS.mk [(["data","Photography","2020","03","15","IMG_01.jpg"], 1),
            (["mnt","staging","organized","2020","03","15","IMG_01.jpg"], 2),
            (["mnt","staging","organized","2019","07","04","pic.jpg"], 3)]).get
      ["mnt","staging","organized","2020","03","15","IMG_01.jpg"] = some 2 ∧
    (importToDarktable 12
      (FS.mk [(["data","Photography","2020","03","15","IMG_01.jpg"], 1),
              (["mnt","staging","organized","2020","03","15","IMG_01.jpg"], 2),
              (["mnt","staging","organized","2019","07","04","pic.jpg"], 3)])
      ["mnt","staging","organized"] ["data","Photography"]).get
      ["mnt","staging","organized","2020","03","15","IMG_01.jpg"] = some 2 :=
  ⟨by decide, by decide,
    claim_C10_import_leaves_staging_intact 12 _
      ["mnt","staging","organized"] ["data","Photography"] _ 2
      (by decide) (by decide)⟩

/-- C4: a file the Temporal Organizer processes without a per-file
failure is moved to the organized path whose year/month/day components
are exactly those of its resolved capture date, and is present there
afterwards; the resolved date is the datetime parsed from the metadata
reader's original-capture field (format `%Y:%m:%d %H:%M:%S`) when that
parse succeeds, and the file's filesystem modification time when the
reader is unavailable. -/
theorem claim_C4_organizer_buckets_by_resolved_date
    (exifResult : Option (Nat × String)) (mtime : PyDatetime)
    (orgDir : Path) (fs : FS) (f : Path) (nm : Name) (c : Nat)
    (d : PyDatetime)
    (hok : getPhotoDate exifResult mtime = Except.ok d)
    (hfs : fs.get f = some c) :
    organizeFile exifResult mtime false orgDir fs f nm =
      fs.move f (orgDir ++ [toString d.year, pad2 d.month, pad2 d.day, nm]) ∧
    (organizeFile exifResult mtime false orgDir fs f nm).get
      (orgDir ++ [toString d.year, pad2 d.month, pad2 d.day, nm]) = some c ∧
    (∀ rc out dateStr d0, exifResult = some (rc, out) → rc = 0 →
      pyContains out "Date/Time Original" = true →
      pySplitOnceAfter (pyStrip out) ": " = some dateStr →
      pyStrptime dateStr = some d0 → d = d0) ∧
    (exifResult = none → d = mtime) := by
  have h1 : organizeFile exifResult mtime false orgDir fs f nm =
      fs.move f (orgDir ++ [toString d.year, pad2 d.month, pad2 d.day, nm]) := by
    simp [organizeFile, hok]
  refine ⟨h1, ?_, ?_, ?_⟩
  · rw [h1, FS.get_move fs _ _ _ c hfs, if_pos rfl]
  · intro rc out dateStr d0 he hrc hcont hsplit hparse
    subst hrc
    rw [he] at hok
    simp only [getPhotoDate, hcont, hsplit, hparse] at hok
    simp at hok
    exact hok.symm
  · intro he
    rw [he] at hok
    exact (Except.ok.inj hok).symm

/-- Witness for C4: the spec's scenario — embedded capture time
`2019:07:04 10:15:00` with a 2023 modification time is organized under
`2019/07/04`, not under `2023`. -/
theorem claim_C4_witness :
    getPhotoDate
      (some (0, "Date/Time Original              : 2019:07:04 10:15:00\n"))
      ⟨2023, 5, 1, 12, 0, 0⟩ = Except.ok ⟨2019, 7, 4, 10, 15, 0⟩ ∧
    (FS.mk [(["mnt","staging","raw_photos","primary_x.cr2"], 7)]).get
      ["mnt","staging","raw_photos","primary_x.cr2"] = some 7 ∧
    toString (2019 : Nat) = "2019" ∧ pad2 7 = "07" ∧ pad2 4 = "04" ∧
    organizeFile
      (some (0, "Date/Time Original              : 2019:07:04 10:15:00\n"))
      ⟨2023, 5, 1, 12, 0, 0⟩ false ["mnt","staging","organized"]
      (FS.mk [(["mnt","staging","raw_photos","primary_x.cr2"], 7)])
      ["mnt","staging","raw_photos","primary_x.cr2"] "primary_x.cr2" =
    (FS.mk [(["mnt","staging","raw_photos","primary_x.cr2"], 7)]).move
      ["mnt","staging","raw_photos","primary_x.cr2"]
      ["mnt","staging","organized","2019","07","04","primary_x.cr2"] :=
  ⟨by decide, by decide, by decide, by decide, by decide,
    by
      have h := (claim_C4_organizer_buckets_by_resolved_date
        (some (0, "Date/Time Original              : 2019:07:04 10:15:00\n"))
        ⟨2023, 5, 1, 12, 0, 0⟩ ["mnt","staging","organized"]
        (FS.mk [(["mnt","staging","raw_photos","primary_x.cr2"], 7)])
        ["mnt","staging","raw_photos","primary_x.cr2"] "primary_x.cr2" 7
        ⟨2019, 7, 4, 10, 15, 0⟩ (by decide) (by decide)).1
      exact h.trans (by decide)⟩

theorem SFS.get_erase_str (fs : SFS) (p q : String) :
    (fs.erase q).get p = if p = q then none else fs.get p := by
  simp only [SFS.erase, SFS.get, find_filter_ne]
  by_cases h : p = q <;> simp [h]

theorem SFS.get_move_str (fs : SFS) (src dst p : String) (c : Nat)
    (hsrc : fs.get src = some c) :
    (fs.move src dst).get p =
      if p = dst then some c else if p = src then none else fs.get p := by
  simp only [SFS.move, hsrc]
  by_cases h1 : p = dst
  · subst h1
    simp [SFS.get, List.find?_cons]
  · have hd : (decide (dst = p)) = false := by
      simp only [decide_eq_false_iff_not]
      exact fun hh => h1 hh.symm
    conv_lhs => simp only [SFS.get, List.find?_cons, hd]
    have : (SFS.mk ((fs.erase src).erase dst).files) = (fs.erase src).erase dst := rfl
    rw [if_neg h1]
    show ((fs.erase src).erase dst).get p = _
    rw [SFS.get_erase_str, if_neg h1, SFS.get_erase_str]

/-- A step of the quarantine loop on a path that no longer exists is a
no-op. -/
theorem moveDup_not_exists (fail : String → Bool) (stageDir : String)
    (st : SFS × Nat) (line : String)
    (h : (st.1.get (pyStrip line)).isSome = false) :
    moveDup fail stageDir st line = st := by
  simp [moveDup, h]

/-- A step of the quarantine loop whose `shutil.move` raises leaves
everything unchanged (the exception is only logged). -/
theorem moveDup_fail (fail : String → Bool) (stageDir : String)
    (st : SFS × Nat) (line : String)
    (h : (st.1.get (pyStrip line)).isSome = true)
    (hf : fail (pyStrip line) = true) :
    moveDup fail stageDir st line = st := by
  simp [moveDup, h, hf]

/-- A successful step of the quarantine loop moves the member to its
quarantine path and counts it. -/
theorem moveDup_moves (fail : String → Bool) (stageDir : String)
    (st : SFS × Nat) (line : String) (c : Nat)
    (h : st.1.get (pyStrip line) = some c)
    (hf : fail (pyStrip line) = false) :
    moveDup fail stageDir st line =
      (st.1.move (pyStrip line)
        (quarantinePath stageDir (baseName (pyStrip line))), st.2 + 1) := by
  simp [moveDup, h, hf]

/-- The quarantine loop never touches a path that is neither a listed
member nor one of their quarantine destinations. -/
theorem dedupFold_get_outside (fail : String → Bool) (stageDir : String) :
    ∀ (l : List String) (st : SFS × Nat) (P : String),
      (∀ m ∈ l, pyStrip m ≠ P) →
      (∀ m ∈ l, quarantinePath stageDir (baseName (pyStrip m)) ≠ P) →
      ((l.foldl (moveDup fail stageDir) st).1).get P = st.1.get P := by
  intro l
  induction l with
  | nil => intro st P _ _; rfl
  | cons m rest ih =>
    intro st P h1 h2
    simp only [List.foldl_cons]
    rw [ih _ _ (fun m2 hm2 => h1 m2 (List.mem_cons_of_mem _ hm2))
      (fun m2 hm2 => h2 m2 (List.mem_cons_of_mem _ hm2))]
    rcases hg : st.1.get (pyStrip m) with _ | c
    · rw [moveDup_not_exists _ _ _ _ (by simp [hg])]
    · rcases hf : fail (pyStrip m) with _ | _
      · rw [moveDup_moves _ _ _ _ c hg hf]
        simp only []
        rw [SFS.get_move_str _ _ _ _ c hg,
          if_neg (fun hh => h2 m (List.mem_cons_self m rest) hh.symm),
          if_neg (fun hh => h1 m (List.mem_cons_self m rest) hh.symm)]
      · rw [moveDup_fail _ _ _ _ (by simp [hg]) hf]

/-- The quarantine loop keeps a path occupied as long as the listed
members do not name it as a source (it may be re-bound as a
destination, which keeps it occupied). -/
theorem dedupFold_isSome_mono (fail : String → Bool) (stageDir : String) :
    ∀ (l : List String) (st : SFS × Nat) (P : String),
      (∀ m ∈ l, pyStrip m ≠ P) →
      (st.1.get P).isSome = true →
      (((l.foldl (moveDup fail stageDir) st).1).get P).isSome = true := by
  intro l
  induction l with
  | nil => intro st P _ h; exact h
  | cons m rest ih =>
    intro st P h1 h
    simp only [List.foldl_cons]
    refine ih _ _ (fun m2 hm2 => h1 m2 (List.mem_cons_of_mem _ hm2)) ?_
    rcases hg : st.1.get (pyStrip m) with _ | c
    · rw [moveDup_not_exists _ _ _ _ (by simp [hg])]; exact h
    · rcases hf : fail (pyStrip m) with _ | _
      · rw [moveDup_moves _ _ _ _ c hg hf]
        simp only []
        rw [SFS.get_move_str _ _ _ _ c hg]
        by_cases hP : P = quarantinePath stageDir (baseName (pyStrip m))
        · rw [if_pos hP]; rfl
        · rw [if_neg hP,
            if_neg (fun hh => h1 m (List.mem_cons_self m rest) hh.symm)]
          exact h
      · rw [moveDup_fail _ _ _ _ (by simp [hg]) hf]; exact h

/-- Main invariant of the quarantine loop over the non-first members
of one group (all initially present, pairwise distinct, and disjoint
from the quarantine destinations): a member whose move does not fail
ends up gone from its original path and present at its quarantine
path; a member whose move raises stays untouched; the counter counts
exactly the successful moves. -/
theorem dedupFold_main (fail : String → Bool) (stageDir : String) :
    ∀ (l : List String) (fs : SFS) (n : Nat),
      ((l.map pyStrip).Nodup) →
      (∀ m ∈ l, (fs.get (pyStrip m)).isSome = true) →
      (∀ m ∈ l, ∀ m2 ∈ l,
        quarantinePath stageDir (baseName (pyStrip m)) ≠ pyStrip m2) →
      (∀ m ∈ l, fail (pyStrip m) = false →
        ((l.foldl (moveDup fail stageDir) (fs, n)).1.get (pyStrip m)
            = none ∧
         (((l.foldl (moveDup fail stageDir) (fs, n)).1.get
           (quarantinePath stageDir (baseName (pyStrip m)))).isSome
            = true))) ∧
      (∀ m ∈ l, fail (pyStrip m) = true →
        (l.foldl (moveDup fail stageDir) (fs, n)).1.get (pyStrip m) =
          fs.get (pyStrip m)) ∧
      ((l.foldl (moveDup fail stageDir) (fs, n)).2 =
        n + l.countP (fun m => !(fail (pyStrip m)))) := by
  intro l
  induction l with
  | nil =>
    intro fs n _ _ _
    refine ⟨by simp, by simp, by simp⟩
  | cons m rest ih =>
    intro fs n hnodup hex hq
    have hmem : m ∈ m :: rest := List.mem_cons_self m rest
    obtain ⟨c, hc⟩ := Option.isSome_iff_exists.mp (hex m hmem)
    have hpnotin : pyStrip m ∉ rest.map pyStrip :=
      (List.nodup_cons.mp (by simpa using hnodup)).1
    have hnodup2 : (rest.map pyStrip).Nodup :=
      (List.nodup_cons.mp (by simpa using hnodup)).2
    have hstrip_ne : ∀ m2 ∈ rest, pyStrip m2 ≠ pyStrip m := by
      intro m2 hm2 he
      exact hpnotin (he ▸ List.mem_map_of_mem pyStrip hm2)
    have hq_ne_p : ∀ m2 ∈ rest,
        quarantinePath stageDir (baseName (pyStrip m2)) ≠ pyStrip m := by
      intro m2 hm2
      exact hq m2 (List.mem_cons_of_mem _ hm2) m hmem
    have hdst_ne : ∀ m2 ∈ rest,
        pyStrip m2 ≠ quarantinePath stageDir (baseName (pyStrip m)) := by
      intro m2 hm2 he
      exact hq m hmem m2 (List.mem_cons_of_mem _ hm2) he.symm
    have hdstp : quarantinePath stageDir (baseName (pyStrip m)) ≠
        pyStrip m := hq m hmem m hmem
    by_cases hf : fail (pyStrip m) = true
    · -- the head member's move raises: nothing changes for it
      have hstep : moveDup fail stageDir (fs, n) m = (fs, n) :=
        moveDup_fail _ _ _ _ (by simp [hc]) hf
      have ihr := ih fs n hnodup2
        (fun m2 hm2 => hex m2 (List.mem_cons_of_mem _ hm2))
        (fun m2 hm2 m3 hm3 => hq m2 (List.mem_cons_of_mem _ hm2)
          m3 (List.mem_cons_of_mem _ hm3))
      refine ⟨?_, ?_, ?_⟩
      · intro m2 hm2 hf2
        rcases List.mem_cons.mp hm2 with rfl | hm2
        · rw [hf2] at hf; exact absurd hf (by simp)
        · simpa [List.foldl_cons, hstep] using ihr.1 m2 hm2 hf2
      · intro m2 hm2 hf2
        rcases List.mem_cons.mp hm2 with rfl | hm2
        · simp only [List.foldl_cons, hstep]
          exact dedupFold_get_outside fail stageDir rest (fs, n) _
            hstrip_ne hq_ne_p
        · simpa [List.foldl_cons, hstep] using ihr.2.1 m2 hm2 hf2
      · simp only [List.foldl_cons, hstep]
        rw [ihr.2.2, List.countP_cons]
        simp [hf]
    · -- the head member moves to quarantine successfully
      have hf0 : fail (pyStrip m) = false := by
        cases hfc : fail (pyStrip m)
        · rfl
        · exact absurd hfc hf
      have hstep : moveDup fail stageDir (fs, n) m =
          (fs.move (pyStrip m)
            (quarantinePath stageDir (baseName (pyStrip m))), n + 1) :=
        moveDup_moves _ _ _ _ c hc hf0
      set dst := quarantinePath stageDir (baseName (pyStrip m)) with hdst
      set fs1 := fs.move (pyStrip m) dst with hfs1
      have hget1 : ∀ P, fs1.get P =
          if P = dst then some c
          else if P = pyStrip m then none else fs.get P := by
        intro P
        rw [hfs1, SFS.get_move_str _ _ _ _ c hc]
      have hex1 : ∀ m2 ∈ rest, (fs1.get (pyStrip m2)).isSome = true := by
        intro m2 hm2
        rw [hget1]
        by_cases h2 : pyStrip m2 = dst
        · rw [if_pos h2]; rfl
        · rw [if_neg h2, if_neg (hstrip_ne m2 hm2)]
          exact hex m2 (List.mem_cons_of_mem _ hm2)
      have ihr := ih fs1 (n + 1) hnodup2 hex1
        (fun m2 hm2 m3 hm3 => hq m2 (List.mem_cons_of_mem _ hm2)
          m3 (List.mem_cons_of_mem _ hm3))
      refine ⟨?_, ?_, ?_⟩
      · intro m2 hm2 hf2
        rcases List.mem_cons.mp hm2 with rfl | hm2
        · constructor
          · simp only [List.foldl_cons, hstep]
            rw [dedupFold_get_outside fail stageDir rest (fs1, n + 1) _
              hstrip_ne hq_ne_p]
            rw [hget1, if_neg hdstp.symm, if_pos rfl]
          · simp only [List.foldl_cons, hstep]
            refine dedupFold_isSome_mono fail stageDir rest (fs1, n + 1) _
              hdst_ne ?_
            rw [hget1, if_pos rfl]
            rfl
        · simpa [List.foldl_cons, hstep] using ihr.1 m2 hm2 hf2
      · intro m2 hm2 hf2
        rcases List.mem_cons.mp hm2 with rfl | hm2
        · rw [hf2] at hf0; exact absurd hf0 (by simp)
        · have := ihr.2.1 m2 hm2 hf2
          simp only [List.foldl_cons, hstep]
          rw [this, hget1,
            if_neg (hdst_ne m2 hm2), if_neg (hstrip_ne m2 hm2)]
      · simp only [List.foldl_cons, hstep]
        rw [ihr.2.2, List.countP_cons]
        simp [hf0]
        omega

/-- Content version of the quarantine-loop invariant: when
additionally no two members share a quarantine destination (distinct
base filenames) and no move fails, every member's original content
sits at its quarantine path afterwards. -/
theorem dedupFold_content (fail : String → Bool) (stageDir : String) :
    ∀ (l : List String) (fs : SFS) (n : Nat),
      ((l.map pyStrip).Nodup) →
      (∀ m ∈ l, (fs.get (pyStrip m)).isSome = true) →
      (∀ m ∈ l, ∀ m2 ∈ l,
        quarantinePath stageDir (baseName (pyStrip m)) ≠ pyStrip m2) →
      (∀ m ∈ l, fail (pyStrip m) = false) →
      ((l.map (fun m =>
        quarantinePath stageDir (baseName (pyStrip m)))).Nodup) →
      ∀ m ∈ l, (l.foldl (moveDup fail stageDir) (fs, n)).1.get
          (quarantinePath stageDir (baseName (pyStrip m))) =
          fs.get (pyStrip m) := by
  intro l
  induction l with
  | nil => intro fs n _ _ _ _ _ m hm; exact absurd hm (by simp)
  | cons m rest ih =>
    intro fs n hnodup hex hq hfl hqnodup
    have hmem : m ∈ m :: rest := List.mem_cons_self m rest
    obtain ⟨c, hc⟩ := Option.isSome_iff_exists.mp (hex m hmem)
    have hpnotin : pyStrip m ∉ rest.map pyStrip :=
      (List.nodup_cons.mp (by simpa using hnodup)).1
    have hnodup2 : (rest.map pyStrip).Nodup :=
      (List.nodup_cons.mp (by simpa using hnodup)).2
    have hstrip_ne : ∀ m2 ∈ rest, pyStrip m2 ≠ pyStrip m := by
      intro m2 hm2 he
      exact hpnotin (he ▸ List.mem_map_of_mem pyStrip hm2)
    have hdst_ne : ∀ m2 ∈ rest,
        pyStrip m2 ≠ quarantinePath stageDir (baseName (pyStrip m)) := by
      intro m2 hm2 he
      exact hq m hmem m2 (List.mem_cons_of_mem _ hm2) he.symm
    have hdstp : quarantinePath stageDir (baseName (pyStrip m)) ≠
        pyStrip m := hq m hmem m hmem
    have hqnotin : quarantinePath stageDir (baseName (pyStrip m)) ∉
        rest.map (fun m2 =>
          quarantinePath stageDir (baseName (pyStrip m2))) :=
      (List.nodup_cons.mp (by simpa using hqnodup)).1
    have hqnodup2 : (rest.map (fun m2 =>
        quarantinePath stageDir (baseName (pyStrip m2)))).Nodup :=
      (List.nodup_cons.mp (by simpa using hqnodup)).2
    have hq_ne_dst : ∀ m2 ∈ rest,
        quarantinePath stageDir (baseName (pyStrip m2)) ≠
          quarantinePath stageDir (baseName (pyStrip m)) := by
      intro m2 hm2 he
      exact hqnotin (he ▸ List.mem_map_of_mem _ hm2)
    have hstep : moveDup fail stageDir (fs, n) m =
        (fs.move (pyStrip m)
          (quarantinePath stageDir (baseName (pyStrip m))), n + 1) :=
      moveDup_moves _ _ _ _ c hc (hfl m hmem)
    set dst := quarantinePath stageDir (baseName (pyStrip m)) with hdst
    set fs1 := fs.move (pyStrip m) dst with hfs1
    have hget1 : ∀ P, fs1.get P =
        if P = dst then some c
        else if P = pyStrip m then none else fs.get P := by
      intro P
      rw [hfs1, SFS.get_move_str _ _ _ _ c hc]
    have hex1 : ∀ m2 ∈ rest, (fs1.get (pyStrip m2)).isSome = true := by
      intro m2 hm2
      rw [hget1]
      by_cases h2 : pyStrip m2 = dst
      · rw [if_pos h2]; rfl
      · rw [if_neg h2, if_neg (hstrip_ne m2 hm2)]
        exact hex m2 (List.mem_cons_of_mem _ hm2)
    intro m2 hm2
    rcases List.mem_cons.mp hm2 with rfl | hm2
    · simp only [List.foldl_cons, hstep]
      rw [← hdst]
      rw [dedupFold_get_outside fail stageDir rest (fs1, n + 1) dst
        hdst_ne hq_ne_dst]
      rw [hget1, if_pos rfl, hc]
    · have := ih fs1 (n + 1) hnodup2 hex1
        (fun m3 hm3 m4 hm4 => hq m3 (List.mem_cons_of_mem _ hm3)
          m4 (List.mem_cons_of_mem _ hm4))
        (fun m3 hm3 => hfl m3 (List.mem_cons_of_mem _ hm3))
        hqnodup2 m2 hm2
      simp only [List.foldl_cons, hstep]
      rw [this, hget1,
        if_neg (hdst_ne m2 hm2), if_neg (hstrip_ne m2 hm2)]

/-- One outer-loop iteration of `_handle_duplicates` always equals the
quarantine fold over the group's non-first lines: blank groups and
groups with fewer than two lines have no non-first lines and are
skipped either way. -/
theorem handleGroup_eq_fold (fail : String → Bool) (stageDir : String)
    (st : SFS × Nat) (g : String) :
    handleGroup fail stageDir st g =
      ((pySplit (pyStrip g) "\n").drop 1).foldl
        (moveDup fail stageDir) st := by
  simp only [handleGroup]
  by_cases hb : pyStrip g = ""
  · rw [if_pos hb, hb]
    rfl
  · rw [if_neg hb]
    by_cases hl : (pySplit (pyStrip g) "\n").length < 2
    · rw [if_pos hl]
      have hdrop : (pySplit (pyStrip g) "\n").drop 1 = [] := by
        rw [List.drop_eq_nil_iff]
        omega
      rw [hdrop]
      rfl
    · rw [if_neg hl]

/-- Re-running the quarantine loop after every member is gone is a
no-op. -/
theorem dedupFold_skips (fail : String → Bool) (stageDir : String) :
    ∀ (l : List String) (st : SFS × Nat),
      (∀ m ∈ l, (st.1.get (pyStrip m)).isSome = false) →
      l.foldl (moveDup fail stageDir) st = st := by
  intro l
  induction l with
  | nil => intro st _; rfl
  | cons m rest ih =>
    intro st h
    simp only [List.foldl_cons]
    rw [moveDup_not_exists _ _ _ _ (h m (List.mem_cons_self m rest))]
    exact ih st (fun m2 hm2 => h m2 (List.mem_cons_of_mem _ hm2))

/-- C2: for a duplicate group with at least two listed members (all
present, pairwise distinct, and away from the quarantine directory),
resolution leaves exactly the first member at its original path with
its original content, removes every other member from its original
path, places a file at each other member's quarantine path (the
staging `duplicates` directory, base filename only), and running
resolution a second time on the same group changes nothing — in
particular it does not delete or move the retained first member. -/
theorem claim_C2_one_survivor_per_group_rest_quarantined
    (fail : String → Bool) (stageDir : String) (fs : SFS) (n : Nat)
    (g m0 : String) (rest : List String)
    (hsplit : pySplit (pyStrip g) "\n" = m0 :: rest)
    (hrest : rest ≠ [])
    (hnodup : (((m0 :: rest).map pyStrip)).Nodup)
    (hex : ∀ m ∈ m0 :: rest, (fs.get (pyStrip m)).isSome = true)
    (hfail : ∀ m ∈ m0 :: rest, fail (pyStrip m) = false)
    (hq : ∀ m ∈ m0 :: rest, ∀ m2 ∈ m0 :: rest,
      quarantinePath stageDir (baseName (pyStrip m)) ≠ pyStrip m2) :
    (handleGroup fail stageDir (fs, n) g).1.get (pyStrip m0) =
      fs.get (pyStrip m0) ∧
    (∀ m ∈ rest,
      (handleGroup fail stageDir (fs, n) g).1.get (pyStrip m) = none) ∧
    (∀ m ∈ rest,
      ((handleGroup fail stageDir (fs, n) g).1.get
        (quarantinePath stageDir (baseName (pyStrip m)))).isSome = true) ∧
    handleGroup fail stageDir (handleGroup fail stageDir (fs, n) g) g =
      handleGroup fail stageDir (fs, n) g := by
  have hEq : handleGroup fail stageDir (fs, n) g =
      rest.foldl (moveDup fail stageDir) (fs, n) := by
    rw [handleGroup_eq_fold, hsplit]
    rfl
  have hm0 : m0 ∈ m0 :: rest := List.mem_cons_self m0 rest
  have hm0notin : pyStrip m0 ∉ rest.map pyStrip :=
    (List.nodup_cons.mp (by simpa using hnodup)).1
  have hnodup2 : (rest.map pyStrip).Nodup :=
    (List.nodup_cons.mp (by simpa using hnodup)).2
  have hstrip_ne_m0 : ∀ m ∈ rest, pyStrip m ≠ pyStrip m0 := by
    intro m hm he
    exact hm0notin (he ▸ List.mem_map_of_mem pyStrip hm)
  have hq_ne_m0 : ∀ m ∈ rest,
      quarantinePath stageDir (baseName (pyStrip m)) ≠ pyStrip m0 := by
    intro m hm
    exact hq m (List.mem_cons_of_mem _ hm) m0 hm0
  have hmain := dedupFold_main fail stageDir rest fs n hnodup2
    (fun m hm => hex m (List.mem_cons_of_mem _ hm))
    (fun m hm m2 hm2 => hq m (List.mem_cons_of_mem _ hm)
      m2 (List.mem_cons_of_mem _ hm2))
  refine ⟨?_, ?_, ?_, ?_⟩
  · rw [hEq]
    exact dedupFold_get_outside fail stageDir rest (fs, n) _
      hstrip_ne_m0 hq_ne_m0
  · intro m hm
    rw [hEq]
    exact (hmain.1 m hm (hfail m (List.mem_cons_of_mem _ hm))).1
  · intro m hm
    rw [hEq]
    exact (hmain.1 m hm (hfail m (List.mem_cons_of_mem _ hm))).2
  · rw [hEq]
    rw [handleGroup_eq_fold, hsplit]
    show rest.foldl (moveDup fail stageDir)
      (rest.foldl (moveDup fail stageDir) (fs, n)) = _
    apply dedupFold_skips
    intro m hm
    rw [(hmain.1 m hm (hfail m (List.mem_cons_of_mem _ hm))).1]
    rfl

/-- Witness for C2: a three-member group; the first staged file
survives in place, the other two are quarantined, and a second
resolution run is a no-op. -/
theorem claim_C2_witness :
    pySplit (pyStrip "/mnt/staging/raw_photos/primary_a.cr2\n/mnt/staging/raw_photos/media_b.cr2\n/mnt/staging/processed_photos/ext_c.jpg") "\n" =
      "/mnt/staging/raw_photos/primary_a.cr2" ::
        ["/mnt/staging/raw_photos/media_b.cr2",
         "/mnt/staging/processed_photos/ext_c.jpg"] ∧
    (["/mnt/staging/raw_photos/media_b.cr2",
      "/mnt/staging/processed_photos/ext_c.jpg"] : List String) ≠ [] ∧
    ((("/mnt/staging/raw_photos/primary_a.cr2" ::
        ["/mnt/staging/raw_photos/media_b.cr2",
         "/mnt/staging/processed_photos/ext_c.jpg"]).map pyStrip)).Nodup ∧
    (∀ m ∈ "/mnt/staging/raw_photos/primary_a.cr2" ::
        ["/mnt/staging/raw_photos/media_b.cr2",
         "/mnt/staging/processed_photos/ext_c.jpg"],
      ((SFS.mk [("/mnt/staging/raw_photos/primary_a.cr2", 1),
                ("/mnt/staging/raw_photos/media_b.cr2", 2),
                ("/mnt/staging/processed_photos/ext_c.jpg", 3)]).get
        (pyStrip m)).isSome = true) ∧
    (∀ m ∈ "/mnt/staging/raw_photos/primary_a.cr2" ::
        ["/mnt/staging/raw_photos/media_b.cr2",
         "/mnt/staging/processed_photos/ext_c.jpg"],
      (fun (_ : String) => false) (pyStrip m) = false) ∧
    (∀ m ∈ "/mnt/staging/raw_photos/primary_a.cr2" ::
        ["/mnt/staging/raw_photos/media_b.cr2",
         "/mnt/staging/processed_photos/ext_c.jpg"],
      ∀ m2 ∈ "/mnt/staging/raw_photos/primary_a.cr2" ::
        ["/mnt/staging/raw_photos/media_b.cr2",
         "/mnt/staging/processed_photos/ext_c.jpg"],
      quarantinePath "/mnt/staging" (baseName (pyStrip m)) ≠ pyStrip m2) ∧
    ((handleGroup (fun (_ : String) => false) "/mnt/staging"
        (SFS.mk [("/mnt/staging/raw_photos/primary_a.cr2", 1),
                 ("/mnt/staging/raw_photos/media_b.cr2", 2),
                 ("/mnt/staging/processed_photos/ext_c.jpg", 3)], 0)
        "/mnt/staging/raw_photos/primary_a.cr2\n/mnt/staging/raw_photos/media_b.cr2\n/mnt/staging/processed_photos/ext_c.jpg").1.get
        (pyStrip "/mnt/staging/raw_photos/primary_a.cr2") =
      (SFS.mk [("/mnt/staging/raw_photos/primary_a.cr2", 1),
               ("/mnt/staging/raw_photos/media_b.cr2", 2),
               ("/mnt/staging/processed_photos/ext_c.jpg", 3)]).get
        (pyStrip "/mnt/staging/raw_photos/primary_a.cr2") ∧
     (∀ m ∈ ["/mnt/staging/raw_photos/media_b.cr2",
             "/mnt/staging/processed_photos/ext_c.jpg"],
       (handleGroup (fun (_ : String) => false) "/mnt/staging"
        (SFS.mk [("/mnt/staging/raw_photos/primary_a.cr2", 1),
                 ("/mnt/staging/raw_photos/media_b.cr2", 2),
                 ("/mnt/staging/processed_photos/ext_c.jpg", 3)], 0)
        "/mnt/staging/raw_photos/primary_a.cr2\n/mnt/staging/raw_photos/media_b.cr2\n/mnt/staging/processed_photos/ext_c.jpg").1.get
        (pyStrip m) = none) ∧
     (∀ m ∈ ["/mnt/staging/raw_photos/media_b.cr2",
             "/mnt/staging/processed_photos/ext_c.jpg"],
       ((handleGroup (fun (_ : String) => false) "/mnt/staging"
        (SFS.mk [("/mnt/staging/raw_photos/primary_a.cr2", 1),
                 ("/mnt/staging/raw_photos/media_b.cr2", 2),
                 ("/mnt/staging/processed_photos/ext_c.jpg", 3)], 0)
        "/mnt/staging/raw_photos/primary_a.cr2\n/mnt/staging/raw_photos/media_b.cr2\n/mnt/staging/processed_photos/ext_c.jpg").1.get
        (quarantinePath "/mnt/staging" (baseName (pyStrip m)))).isSome
          = true) ∧
     handleGroup (fun (_ : String) => false) "/mnt/staging"
        (handleGroup (fun (_ : String) => false) "/mnt/staging"
          (SFS.mk [("/mnt/staging/raw_photos/primary_a.cr2", 1),
                   ("/mnt/staging/raw_photos/media_b.cr2", 2),
                   ("/mnt/staging/processed_photos/ext_c.jpg", 3)], 0)
          "/mnt/staging/raw_photos/primary_a.cr2\n/mnt/staging/raw_photos/media_b.cr2\n/mnt/staging/processed_photos/ext_c.jpg")
        "/mnt/staging/raw_photos/primary_a.cr2\n/mnt/staging/raw_photos/media_b.cr2\n/mnt/staging/processed_photos/ext_c.jpg" =
      handleGroup (fun (_ : String) => false) "/mnt/staging"
        (SFS.mk [("/mnt/staging/raw_photos/primary_a.cr2", 1),
                 ("/mnt/staging/raw_photos/media_b.cr2", 2),
                 ("/mnt/staging/processed_photos/ext_c.jpg", 3)], 0)
        "/mnt/staging/raw_photos/primary_a.cr2\n/mnt/staging/raw_photos/media_b.cr2\n/mnt/staging/processed_photos/ext_c.jpg") :=
  ⟨by decide, by decide, by decide, by decide, by decide, by decide,
    claim_C2_one_survivor_per_group_rest_quarantined
      (fun (_ : String) => false) "/mnt/staging"
      (SFS.mk [("/mnt/staging/raw_photos/primary_a.cr2", 1),
               ("/mnt/staging/raw_photos/media_b.cr2", 2),
               ("/mnt/staging/processed_photos/ext_c.jpg", 3)]) 0
      "/mnt/staging/raw_photos/primary_a.cr2\n/mnt/staging/raw_photos/media_b.cr2\n/mnt/staging/processed_photos/ext_c.jpg"
      "/mnt/staging/raw_photos/primary_a.cr2"
      ["/mnt/staging/raw_photos/media_b.cr2",
       "/mnt/staging/processed_photos/ext_c.jpg"]
      (by decide) (by decide) (by decide) (by decide) (by decide)
      (by decide)⟩

/-- The whole outer loop of `_handle_duplicates` never touches a path
that no group's non-first lines name as a source or quarantine
destination. -/
theorem dedupGroups_get_outside (fail : String → Bool)
    (stageDir : String) :
    ∀ (gs : List String) (st : SFS × Nat) (P : String),
      (∀ g ∈ gs, ∀ m ∈ (pySplit (pyStrip g) "\n").drop 1,
        pyStrip m ≠ P) →
      (∀ g ∈ gs, ∀ m ∈ (pySplit (pyStrip g) "\n").drop 1,
        quarantinePath stageDir (baseName (pyStrip m)) ≠ P) →
      ((gs.foldl (handleGroup fail stageDir) st).1).get P = st.1.get P := by
  intro gs
  induction gs with
  | nil => intro st P _ _; rfl
  | cons g rest ih =>
    intro st P h1 h2
    simp only [List.foldl_cons]
    rw [ih _ _ (fun g2 hg2 => h1 g2 (List.mem_cons_of_mem _ hg2))
      (fun g2 hg2 => h2 g2 (List.mem_cons_of_mem _ hg2))]
    rw [handleGroup_eq_fold]
    exact dedupFold_get_outside fail stageDir _ st P
      (h1 g (List.mem_cons_self g rest))
      (h2 g (List.mem_cons_self g rest))

/-- Loss-lessness of the whole outer loop when quarantine destinations
do not collide: with all non-first members present, pairwise distinct,
away from the quarantine directory, with pairwise distinct quarantine
destinations, and no move failing, every non-first member's original
content sits at its quarantine path after all groups are processed. -/
theorem dedupGroups_content (fail : String → Bool) (stageDir : String) :
    ∀ (gs : List String) (st : SFS × Nat),
      (((gs.flatMap (fun g => (pySplit (pyStrip g) "\n").drop 1)).map
        pyStrip).Nodup) →
      (∀ m ∈ gs.flatMap (fun g => (pySplit (pyStrip g) "\n").drop 1),
        (st.1.get (pyStrip m)).isSome = true) →
      (∀ m ∈ gs.flatMap (fun g => (pySplit (pyStrip g) "\n").drop 1),
        ∀ m2 ∈ gs.flatMap (fun g => (pySplit (pyStrip g) "\n").drop 1),
        quarantinePath stageDir (baseName (pyStrip m)) ≠ pyStrip m2) →
      (((gs.flatMap (fun g => (pySplit (pyStrip g) "\n").drop 1)).map
        (fun m => quarantinePath stageDir (baseName (pyStrip m)))).Nodup) →
      (∀ m ∈ gs.flatMap (fun g => (pySplit (pyStrip g) "\n").drop 1),
        fail (pyStrip m) = false) →
      ∀ m ∈ gs.flatMap (fun g => (pySplit (pyStrip g) "\n").drop 1),
        ((gs.foldl (handleGroup fail stageDir) st).1).get
          (quarantinePath stageDir (baseName (pyStrip m))) =
        st.1.get (pyStrip m) := by
  intro gs
  induction gs with
  | nil =>
    intro st _ _ _ _ _ m hm
    exact absurd hm (by simp)
  | cons g rest ih =>
    intro st hnodup hex hq hqnodup hfl m hm
    rw [List.flatMap_cons] at hnodup hex hq hqnodup hfl hm
    rw [List.map_append] at hnodup hqnodup
    have hdisjs := (List.nodup_append.mp hnodup).2.2
    have hdisjq := (List.nodup_append.mp hqnodup).2.2
    have hgeq : handleGroup fail stageDir st g =
        ((pySplit (pyStrip g) "\n").drop 1).foldl
          (moveDup fail stageDir) st :=
      handleGroup_eq_fold fail stageDir st g
    -- effect of the head group
    have hcont := dedupFold_content fail stageDir
      ((pySplit (pyStrip g) "\n").drop 1) st.1 st.2
      (List.Nodup.of_append_left hnodup)
      (fun m2 hm2 => hex m2 (List.mem_append_left _ hm2))
      (fun m2 hm2 m3 hm3 => hq m2 (List.mem_append_left _ hm2)
        m3 (List.mem_append_left _ hm3))
      (fun m2 hm2 => hfl m2 (List.mem_append_left _ hm2))
      (List.Nodup.of_append_left hqnodup)
    -- members of later groups are untouched by the head group
    have hlater : ∀ m2 ∈ rest.flatMap
        (fun g2 => (pySplit (pyStrip g2) "\n").drop 1),
        ((handleGroup fail stageDir st g).1).get (pyStrip m2) =
          st.1.get (pyStrip m2) := by
      intro m2 hm2
      rw [hgeq]
      refine dedupFold_get_outside fail stageDir _ st _ ?_ ?_
      · intro m3 hm3 he
        exact hdisjs (List.mem_map_of_mem pyStrip hm3)
          (he ▸ List.mem_map_of_mem pyStrip hm2)
      · intro m3 hm3
        exact hq m3 (List.mem_append_left _ hm3)
          m2 (List.mem_append_right _ hm2)
    rcases List.mem_append.mp hm with hmg | hmr
    · -- a member of the head group: placed by the head group, then
      -- untouched by the later groups
      simp only [List.foldl_cons]
      rw [dedupGroups_get_outside fail stageDir rest
        (handleGroup fail stageDir st g) _ ?_ ?_]
      · rw [hgeq]
        exact hcont m hmg
      · intro g2 hg2 m3 hm3 he
        exact hq m (List.mem_append_left _ hmg) m3
          (List.mem_append_right _ (List.mem_flatMap_of_mem hg2 hm3))
          he.symm
      · intro g2 hg2 m3 hm3 he
        exact hdisjq
          (List.mem_map_of_mem _ hmg)
          (he ▸ List.mem_map_of_mem _ (List.mem_flatMap_of_mem hg2 hm3))
          |>.elim
    · -- a member of a later group
      simp only [List.foldl_cons]
      have hex2 : ∀ m2 ∈ rest.flatMap
          (fun g2 => (pySplit (pyStrip g2) "\n").drop 1),
          (((handleGroup fail stageDir st g).1).get (pyStrip m2)).isSome
            = true := by
        intro m2 hm2
        rw [hlater m2 hm2]
        exact hex m2 (List.mem_append_right _ hm2)
      have := ih (handleGroup fail stageDir st g)
        (List.Nodup.of_append_right hnodup) hex2
        (fun m2 hm2 m3 hm3 => hq m2 (List.mem_append_right _ hm2)
          m3 (List.mem_append_right _ hm3))
        (List.Nodup.of_append_right hqnodup)
        (fun m2 hm2 => hfl m2 (List.mem_append_right _ hm2))
        m hmr
      rw [this, hlater m hmr]

theorem foldl_add_map_sum {α : Type} (f : α → Nat) :
    ∀ (l : List α) (n : Nat),
      l.foldl (fun acc g => acc + f g) n = n + (l.map f).sum := by
  intro l
  induction l with
  | nil => intro n; simp
  | cons g rest ih =>
    intro n
    simp only [List.foldl_cons, List.map_cons, List.sum_cons, ih]
    omega

/-- The counter of the whole outer loop of `_handle_duplicates` counts
every non-first member when all are present, pairwise distinct, away
from the quarantine directory, and no move fails. -/
theorem dedupGroups_count (fail : String → Bool) (stageDir : String) :
    ∀ (gs : List String) (st : SFS × Nat),
      (((gs.flatMap (fun g => (pySplit (pyStrip g) "\n").drop 1)).map
        pyStrip).Nodup) →
      (∀ m ∈ gs.flatMap (fun g => (pySplit (pyStrip g) "\n").drop 1),
        (st.1.get (pyStrip m)).isSome = true) →
      (∀ m ∈ gs.flatMap (fun g => (pySplit (pyStrip g) "\n").drop 1),
        ∀ m2 ∈ gs.flatMap (fun g => (pySplit (pyStrip g) "\n").drop 1),
        quarantinePath stageDir (baseName (pyStrip m)) ≠ pyStrip m2) →
      (∀ m ∈ gs.flatMap (fun g => (pySplit (pyStrip g) "\n").drop 1),
        fail (pyStrip m) = false) →
      (gs.foldl (handleGroup fail stageDir) st).2 =
        st.2 + (gs.map
          (fun g => ((pySplit (pyStrip g) "\n").drop 1).length)).sum := by
  intro gs
  induction gs with
  | nil => intro st _ _ _ _; simp
  | cons g rest ih =>
    intro st hnodup hex hq hfl
    rw [List.flatMap_cons] at hnodup hex hq hfl
    rw [List.map_append] at hnodup
    have hdisjs := (List.nodup_append.mp hnodup).2.2
    have hmain := dedupFold_main fail stageDir
      ((pySplit (pyStrip g) "\n").drop 1) st.1 st.2
      (List.Nodup.of_append_left hnodup)
      (fun m2 hm2 => hex m2 (List.mem_append_left _ hm2))
      (fun m2 hm2 m3 hm3 => hq m2 (List.mem_append_left _ hm2)
        m3 (List.mem_append_left _ hm3))
    have hgeq : handleGroup fail stageDir st g =
        ((pySplit (pyStrip g) "\n").drop 1).foldl
          (moveDup fail stageDir) st :=
      handleGroup_eq_fold fail stageDir st g
    have hcount : (handleGroup fail stageDir st g).2 =
        st.2 + ((pySplit (pyStrip g) "\n").drop 1).length := by
      rw [hgeq]
      have := hmain.2.2
      rw [this]
      congr 1
      rw [List.countP_eq_length]
      intro m2 hm2
      simp [hfl m2 (List.mem_append_left _ hm2)]
    have hlater : ∀ m2 ∈ rest.flatMap
        (fun g2 => (pySplit (pyStrip g2) "\n").drop 1),
        ((handleGroup fail stageDir st g).1).get (pyStrip m2) =
          st.1.get (pyStrip m2) := by
      intro m2 hm2
      rw [hgeq]
      refine dedupFold_get_outside fail stageDir _ st _ ?_ ?_
      · intro m3 hm3 he
        exact hdisjs (List.mem_map_of_mem pyStrip hm3)
          (he ▸ List.mem_map_of_mem pyStrip hm2)
      · intro m3 hm3
        exact hq m3 (List.mem_append_left _ hm3)
          m2 (List.mem_append_right _ hm2)
    simp only [List.foldl_cons]
    rw [ih (handleGroup fail stageDir st g)
      (List.Nodup.of_append_right hnodup)
      (fun m2 hm2 => by
        rw [hlater m2 hm2]
        exact hex m2 (List.mem_append_right _ hm2))
      (fun m2 hm2 m3 hm3 => hq m2 (List.mem_append_right _ hm2)
        m3 (List.mem_append_right _ hm3))
      (fun m2 hm2 => hfl m2 (List.mem_append_right _ hm2))]
    rw [hcount, List.map_cons, List.sum_cons]
    omega

/-- C3 counterexample: two duplicate groups whose non-first members
share the base filename; both are relocated to quarantine (the counter
reads 2), but the overwriting second move destroys the first
quarantined copy — the content 2 of the first group's relocated member
no longer exists anywhere, refuting loss-lessness as claimed. -/
theorem claim_C3_counterexample :
    (handleDuplicates (fun (_ : String) => false) "/mnt/staging"
      "/mnt/staging/raw_photos/A_keep.cr2\n/mnt/staging/raw_photos/sub/A_dup.cr2\n\n/mnt/staging/raw_photos/B_keep.cr2\n/mnt/staging/raw_photos/sub2/A_dup.cr2"
      (SFS.mk [("/mnt/staging/raw_photos/A_keep.cr2", 1),
               ("/mnt/staging/raw_photos/sub/A_dup.cr2", 2),
               ("/mnt/staging/raw_photos/B_keep.cr2", 3),
               ("/mnt/staging/raw_photos/sub2/A_dup.cr2", 4)])).2 = 2 ∧
    ((handleDuplicates (fun (_ : String) => false) "/mnt/staging"
      "/mnt/staging/raw_photos/A_keep.cr2\n/mnt/staging/raw_photos/sub/A_dup.cr2\n\n/mnt/staging/raw_photos/B_keep.cr2\n/mnt/staging/raw_photos/sub2/A_dup.cr2"
      (SFS.mk [("/mnt/staging/raw_photos/A_keep.cr2", 1),
               ("/mnt/staging/raw_photos/sub/A_dup.cr2", 2),
               ("/mnt/staging/raw_photos/B_keep.cr2", 3),
               ("/mnt/staging/raw_photos/sub2/A_dup.cr2", 4)])).1.files.all
      (fun e => decide (e.2 ≠ 2))) = true := by
  constructor
  · decide
  · decide

/-- C3 (amended): duplicate resolution is loss-less provided no two
relocated members share a base filename: when all non-first members
across the run's groups are present, pairwise distinct, away from the
quarantine directory, have pairwise distinct quarantine destinations,
and no move fails, every relocated member's original content is
available at its quarantine path after resolution — quarantined, never
deleted.  (When two quarantined files do share a base filename the
later move silently overwrites the earlier copy.) -/
theorem claim_C3_lossless_whenever_basenames_distinct
    (fail : String → Bool) (stageDir : String) (out : String) (fs : SFS)
    (hnodup : ((((pySplit (pyStrip out) "\n\n").flatMap
      (fun g => (pySplit (pyStrip g) "\n").drop 1)).map pyStrip).Nodup))
    (hex : ∀ m ∈ (pySplit (pyStrip out) "\n\n").flatMap
        (fun g => (pySplit (pyStrip g) "\n").drop 1),
      (fs.get (pyStrip m)).isSome = true)
    (hq : ∀ m ∈ (pySplit (pyStrip out) "\n\n").flatMap
        (fun g => (pySplit (pyStrip g) "\n").drop 1),
      ∀ m2 ∈ (pySplit (pyStrip out) "\n\n").flatMap
        (fun g => (pySplit (pyStrip g) "\n").drop 1),
      quarantinePath stageDir (baseName (pyStrip m)) ≠ pyStrip m2)
    (hqnodup : ((((pySplit (pyStrip out) "\n\n").flatMap
      (fun g => (pySplit (pyStrip g) "\n").drop 1)).map
        (fun m => quarantinePath stageDir (baseName (pyStrip m)))).Nodup))
    (hfl : ∀ m ∈ (pySplit (pyStrip out) "\n\n").flatMap
        (fun g => (pySplit (pyStrip g) "\n").drop 1),
      fail (pyStrip m) = false) :
    ∀ m ∈ (pySplit (pyStrip out) "\n\n").flatMap
        (fun g => (pySplit (pyStrip g) "\n").drop 1),
      ((handleDuplicates fail stageDir out fs).1).get
        (quarantinePath stageDir (baseName (pyStrip m))) =
        fs.get (pyStrip m) := by
  intro m hm
  exact dedupGroups_content fail stageDir
    (pySplit (pyStrip out) "\n\n") (fs, 0)
    hnodup hex hq hqnodup hfl m hm

/-- Witness for C3 (amended): two groups with distinct quarantined
base filenames; both quarantined copies keep their contents 2 and 4. -/
theorem claim_C3_witness :
    (((((pySplit (pyStrip "/mnt/staging/raw_photos/A_keep.cr2\n/mnt/staging/raw_photos/A_dup.cr2\n\n/mnt/staging/raw_photos/B_keep.cr2\n/mnt/staging/raw_photos/B_dup.cr2") "\n\n").flatMap
      (fun g => (pySplit (pyStrip g) "\n").drop 1)).map pyStrip).Nodup)) ∧
    (∀ m ∈ (pySplit (pyStrip "/mnt/staging/raw_photos/A_keep.cr2\n/mnt/staging/raw_photos/A_dup.cr2\n\n/mnt/staging/raw_photos/B_keep.cr2\n/mnt/staging/raw_photos/B_dup.cr2") "\n\n").flatMap
        (fun g => (pySplit (pyStrip g) "\n").drop 1),
      ((SFS.mk [("/mnt/staging/raw_photos/A_keep.cr2", 1),
                ("/mnt/staging/raw_photos/A_dup.cr2", 2),
                ("/mnt/staging/raw_photos/B_keep.cr2", 3),
                ("/mnt/staging/raw_photos/B_dup.cr2", 4)]).get
        (pyStrip m)).isSome = true) ∧
    (((handleDuplicates (fun (_ : String) => false) "/mnt/staging"
      "/mnt/staging/raw_photos/A_keep.cr2\n/mnt/staging/raw_photos/A_dup.cr2\n\n/mnt/staging/raw_photos/B_keep.cr2\n/mnt/staging/raw_photos/B_dup.cr2"
      (SFS.mk [("/mnt/staging/raw_photos/A_keep.cr2", 1),
               ("/mnt/staging/raw_photos/A_dup.cr2", 2),
               ("/mnt/staging/raw_photos/B_keep.cr2", 3),
               ("/mnt/staging/raw_photos/B_dup.cr2", 4)])).1).get
      (quarantinePath "/mnt/staging"
        (baseName (pyStrip "/mnt/staging/raw_photos/A_dup.cr2"))) =
      (SFS.mk [("/mnt/staging/raw_photos/A_keep.cr2", 1),
               ("/mnt/staging/raw_photos/A_dup.cr2", 2),
               ("/mnt/staging/raw_photos/B_keep.cr2", 3),
               ("/mnt/staging/raw_photos/B_dup.cr2", 4)]).get
        (pyStrip "/mnt/staging/raw_photos/A_dup.cr2")) :=
  ⟨by decide, by decide,
    claim_C3_lossless_whenever_basenames_distinct
      (fun (_ : String) => false) "/mnt/staging"
      "/mnt/staging/raw_photos/A_keep.cr2\n/mnt/staging/raw_photos/A_dup.cr2\n\n/mnt/staging/raw_photos/B_keep.cr2\n/mnt/staging/raw_photos/B_dup.cr2"
      (SFS.mk [("/mnt/staging/raw_photos/A_keep.cr2", 1),
               ("/mnt/staging/raw_photos/A_dup.cr2", 2),
               ("/mnt/staging/raw_photos/B_keep.cr2", 3),
               ("/mnt/staging/raw_photos/B_dup.cr2", 4)])
      (by decide) (by decide) (by decide) (by decide) (by decide)
      "/mnt/staging/raw_photos/A_dup.cr2" (by decide)⟩

/-- C5 counterexample: the recorded `duplicates_found` statistic is
computed from the parsed detector output before any move; with a
listed non-first path that no longer exists, the statistic reads 1
while nothing is relocated — refuting that the statistic equals the
number of files actually relocated for every detector output. -/
theorem claim_C5_counterexample :
    duplicatesFoundStat
      "/mnt/staging/raw_photos/A_a.jpg\n/mnt/staging/raw_photos/B_gone.jpg"
      = 1 ∧
    (handleDuplicates (fun (_ : String) => false) "/mnt/staging"
      "/mnt/staging/raw_photos/A_a.jpg\n/mnt/staging/raw_photos/B_gone.jpg"
      (SFS.mk [("/mnt/staging/raw_photos/A_a.jpg", 1)])).2 = 0 ∧
    duplicatesFoundStat
      "/mnt/staging/raw_photos/A_a.jpg\n/mnt/staging/raw_photos/B_gone.jpg"
      ≠ (handleDuplicates (fun (_ : String) => false) "/mnt/staging"
      "/mnt/staging/raw_photos/A_a.jpg\n/mnt/staging/raw_photos/B_gone.jpg"
      (SFS.mk [("/mnt/staging/raw_photos/A_a.jpg", 1)])).2 := by
  refine ⟨?_, ?_, ?_⟩ <;> decide

/-- C5 (amended): the `duplicates_found` statistic equals the number
of non-first paths listed in the parsed detector output; it therefore
equals the number of files actually relocated exactly when the run
loses nothing: output blocks already stripped and non-empty, all
listed non-first paths present, pairwise distinct and away from the
quarantine directory, and no relocation failing.  Otherwise the
statistic can overcount the relocations. -/
theorem claim_C5_stat_counts_relocations_on_clean_runs
    (fail : String → Bool) (stageDir : String) (out : String) (fs : SFS)
    (hclean : ∀ g ∈ pySplit (pyStrip out) "\n\n",
      pyStrip g = g ∧ g ≠ "")
    (hnodup : ((((pySplit (pyStrip out) "\n\n").flatMap
      (fun g => (pySplit (pyStrip g) "\n").drop 1)).map pyStrip).Nodup))
    (hex : ∀ m ∈ (pySplit (pyStrip out) "\n\n").flatMap
        (fun g => (pySplit (pyStrip g) "\n").drop 1),
      (fs.get (pyStrip m)).isSome = true)
    (hq : ∀ m ∈ (pySplit (pyStrip out) "\n\n").flatMap
        (fun g => (pySplit (pyStrip g) "\n").drop 1),
      ∀ m2 ∈ (pySplit (pyStrip out) "\n\n").flatMap
        (fun g => (pySplit (pyStrip g) "\n").drop 1),
      quarantinePath stageDir (baseName (pyStrip m)) ≠ pyStrip m2)
    (hfl : ∀ m ∈ (pySplit (pyStrip out) "\n\n").flatMap
        (fun g => (pySplit (pyStrip g) "\n").drop 1),
      fail (pyStrip m) = false) :
    (handleDuplicates fail stageDir out fs).2 =
      duplicatesFoundStat out := by
  unfold handleDuplicates
  rw [dedupGroups_count fail stageDir (pySplit (pyStrip out) "\n\n")
    (fs, 0) hnodup hex hq hfl]
  unfold duplicatesFoundStat
  have hfilter : (pySplit (pyStrip out) "\n\n").filter
      (fun g => decide (pyStrip g ≠ "")) =
      pySplit (pyStrip out) "\n\n" := by
    rw [List.filter_eq_self]
    intro g hg
    simp [(hclean g hg).1, (hclean g hg).2]
  rw [hfilter, foldl_add_map_sum]
  simp only [Nat.zero_add]
  congr 1
  apply List.map_congr_left
  intro g hg
  rw [(hclean g hg).1, List.length_drop]

/-- Witness for C5 (amended): one clean two-member group over an
intact staging area; the statistic and the relocation count agree. -/
theorem claim_C5_witness :
    (∀ g ∈ pySplit (pyStrip "/mnt/staging/raw_photos/A_a.jpg\n/mnt/staging/raw_photos/B_b.jpg") "\n\n",
      pyStrip g = g ∧ g ≠ "") ∧
    (∀ m ∈ (pySplit (pyStrip "/mnt/staging/raw_photos/A_a.jpg\n/mnt/staging/raw_photos/B_b.jpg") "\n\n").flatMap
        (fun g => (pySplit (pyStrip g) "\n").drop 1),
      ((SFS.mk [("/mnt/staging/raw_photos/A_a.jpg", 1),
                ("/mnt/staging/raw_photos/B_b.jpg", 2)]).get
        (pyStrip m)).isSome = true) ∧
    (handleDuplicates (fun (_ : String) => false) "/mnt/staging"
      "/mnt/staging/raw_photos/A_a.jpg\n/mnt/staging/raw_photos/B_b.jpg"
      (SFS.mk [("/mnt/staging/raw_photos/A_a.jpg", 1),
               ("/mnt/staging/raw_photos/B_b.jpg", 2)])).2 =
      duplicatesFoundStat
        "/mnt/staging/raw_photos/A_a.jpg\n/mnt/staging/raw_photos/B_b.jpg" :=
  ⟨by decide, by decide,
    claim_C5_stat_counts_relocations_on_clean_runs
      (fun (_ : String) => false) "/mnt/staging"
      "/mnt/staging/raw_photos/A_a.jpg\n/mnt/staging/raw_photos/B_b.jpg"
      (SFS.mk [("/mnt/staging/raw_photos/A_a.jpg", 1),
               ("/mnt/staging/raw_photos/B_b.jpg", 2)])
      (by decide) (by decide) (by decide) (by decide) (by decide)⟩

theorem copyOne_errors_mono (fail : String → Bool) (dryRun : Bool)
    (stageDir : Path) (srcName : String) (st : FS × Stats)
    (f : String × Nat) (x : String) (h : x ∈ st.2.errors) :
    x ∈ (copyOneFromSource fail dryRun stageDir srcName st f).2.errors := by
  unfold copyOneFromSource
  rcases hds : destSubdir f.1 with _ | subdir
  · simp only []
    exact h
  · simp only []
    by_cases hd : dryRun = true
    · simp only [hd, if_pos rfl]
      exact h
    · rw [if_neg hd]
      by_cases hf : fail f.1 = true
      · rw [if_pos hf]
        exact List.mem_append_left _ h
      · rw [if_neg hf]
        exact h

theorem copyFold_errors_mono (fail : String → Bool) (dryRun : Bool)
    (stageDir : Path) (srcName : String) :
    ∀ (files : List (String × Nat)) (st : FS × Stats) (x : String),
      x ∈ st.2.errors →
      x ∈ (files.foldl
        (copyOneFromSource fail dryRun stageDir srcName) st).2.errors := by
  intro files
  induction files with
  | nil => intro st x h; exact h
  | cons f rest ih =>
    intro st x h
    simp only [List.foldl_cons]
    exact ih _ x (copyOne_errors_mono _ _ _ _ _ _ _ h)

theorem copyOne_isSome_mono (fail : String → Bool) (dryRun : Bool)
    (stageDir : Path) (srcName : String) (st : FS × Stats)
    (f : String × Nat) (P : Path)
    (h : (st.1.get P).isSome = true) :
    ((copyOneFromSource fail dryRun stageDir srcName st f).1.get
      P).isSome = true := by
  unfold copyOneFromSource
  rcases hds : destSubdir f.1 with _ | subdir
  · simp only []
    exact h
  · simp only []
    by_cases hd : dryRun = true
    · simp only [hd, if_pos rfl]
      exact h
    · rw [if_neg hd]
      by_cases hf : fail f.1 = true
      · rw [if_pos hf]; exact h
      · rw [if_neg hf]
        simp only [FS.get_insert]
        by_cases hP : P = stageDir ++ [subdir, srcName ++ "_" ++ f.1]
        · rw [if_pos hP]; rfl
        · rw [if_neg hP, FS.get_erase, if_neg hP]
          exact h

theorem copyFold_isSome_mono (fail : String → Bool) (dryRun : Bool)
    (stageDir : Path) (srcName : String) :
    ∀ (files : List (String × Nat)) (st : FS × Stats) (P : Path),
      (st.1.get P).isSome = true →
      ((files.foldl (copyOneFromSource fail dryRun stageDir srcName)
        st).1.get P).isSome = true := by
  intro files
  induction files with
  | nil => intro st P h; exact h
  | cons f rest ih =>
    intro st P h
    simp only [List.foldl_cons]
    exact ih _ P (copyOne_isSome_mono _ _ _ _ _ _ _ h)

/-- Staging copy loop: a classified file whose copy raises gets its
message appended to the error list, and the loop goes on. -/
theorem copyFold_error_recorded (fail : String → Bool)
    (stageDir : Path) (srcName : String) :
    ∀ (files : List (String × Nat)) (st : FS × Stats)
      (f : String × Nat) (subdir : String),
      f ∈ files → destSubdir f.1 = some subdir → fail f.1 = true →
      ("Failed to copy " ++ f.1) ∈
        (files.foldl (copyOneFromSource fail false stageDir srcName)
          st).2.errors := by
  intro files
  induction files with
  | nil => intro st f subdir hf _ _; exact absurd hf (by simp)
  | cons f0 rest ih =>
    intro st f subdir hf hsub hfail
    simp only [List.foldl_cons]
    rcases List.mem_cons.mp hf with rfl | hf
    · refine copyFold_errors_mono fail false stageDir srcName rest _ _ ?_
      unfold copyOneFromSource
      simp only [hsub, hfail]
      simp only [Bool.false_eq_true, if_false, if_pos rfl]
      exact List.mem_append_right _ (by simp)
    · exact ih _ f subdir hf hsub hfail

/-- Staging copy loop: a classified file whose copy does not raise
ends up present at its staged destination, whatever happened to the
other files. -/
theorem copyFold_success_lands (fail : String → Bool)
    (stageDir : Path) (srcName : String) :
    ∀ (files : List (String × Nat)) (st : FS × Stats)
      (g : String × Nat) (subdir : String),
      g ∈ files → destSubdir g.1 = some subdir → fail g.1 = false →
      (((files.foldl (copyOneFromSource fail false stageDir srcName)
        st).1).get (stageDir ++ [subdir, srcName ++ "_" ++ g.1])).isSome
        = true := by
  intro files
  induction files with
  | nil => intro st g subdir hg _ _; exact absurd hg (by simp)
  | cons f0 rest ih =>
    intro st g subdir hg hsub hfail
    simp only [List.foldl_cons]
    rcases List.mem_cons.mp hg with rfl | hg
    · refine copyFold_isSome_mono fail false stageDir srcName rest _ _ ?_
      unfold copyOneFromSource
      simp only [hsub, hfail]
      simp only [Bool.false_eq_true, if_false]
      simp only [FS.get_insert, if_pos rfl]
      rfl
    · exact ih _ g subdir hg hsub hfail

/-- One organizer loop iteration touches only the processed file's own
path and its possible organized destinations. -/
theorem orgStep_pres (exif : Path → Option (Nat × String))
    (mtime : Path → PyDatetime) (orgFail : Path → Bool)
    (orgBase pd : Path) (acc : FS) (nm : Name) (P : Path)
    (h1 : P ≠ pd ++ [nm])
    (h2 : ∀ d : PyDatetime,
      P ≠ orgBase ++ [toString d.year, pad2 d.month, pad2 d.day, nm]) :
    (orgStep exif mtime orgFail orgBase pd acc nm).get P = acc.get P := by
  unfold orgStep
  by_cases hf : acc.isFileAt (pd ++ [nm]) = true
  · rw [if_pos hf]
    unfold organizeFile
    by_cases ho : orgFail (pd ++ [nm]) = true
    · rw [if_pos ho]
    · rw [if_neg ho]
      rcases hdate : getPhotoDate (exif (pd ++ [nm])) (mtime (pd ++ [nm]))
        with e | d
      · rfl
      · simp only []
        unfold FS.move
        rcases hsrc : acc.get (pd ++ [nm]) with _ | c
        · rfl
        · show (((acc.erase (pd ++ [nm])).erase _).insert _ c).get P = _
          rw [FS.get_insert, if_neg (h2 d), FS.get_erase,
            if_neg (h2 d), FS.get_erase, if_neg h1]
  · rw [if_neg hf]

/-- The organizer loop never touches a path that is neither a listed
file nor one of their possible organized destinations. -/
theorem orgFold_get_pres (exif : Path → Option (Nat × String))
    (mtime : Path → PyDatetime) (orgFail : Path → Bool)
    (orgBase pd : Path) :
    ∀ (names : List Name) (acc : FS) (P : Path),
      (∀ nm2 ∈ names, P ≠ pd ++ [nm2]) →
      (∀ nm2 ∈ names, ∀ d : PyDatetime,
        P ≠ orgBase ++ [toString d.year, pad2 d.month, pad2 d.day, nm2]) →
      (names.foldl (orgStep exif mtime orgFail orgBase pd) acc).get P =
        acc.get P := by
  intro names
  induction names with
  | nil => intro acc P _ _; rfl
  | cons n0 rest ih =>
    intro acc P h1 h2
    simp only [List.foldl_cons]
    rw [ih _ _ (fun nm2 h => h1 nm2 (List.mem_cons_of_mem _ h))
      (fun nm2 h => h2 nm2 (List.mem_cons_of_mem _ h))]
    exact orgStep_pres _ _ _ _ _ _ _ _
      (h1 n0 (List.mem_cons_self n0 rest))
      (h2 n0 (List.mem_cons_self n0 rest))

/-- Organizer loop: a file whose processing raises stays untouched at
its staged path while the loop continues with the next file. -/
theorem orgFold_failed_untouched (exif : Path → Option (Nat × String))
    (mtime : Path → PyDatetime) (orgFail : Path → Bool)
    (orgBase pd : Path) :
    ∀ (names : List Name) (acc : FS) (nm : Name),
      names.Nodup →
      (∀ nm2 ∈ names, (pd ++ [nm2]).take orgBase.length ≠ orgBase) →
      nm ∈ names → orgFail (pd ++ [nm]) = true →
      ((names.foldl (orgStep exif mtime orgFail orgBase pd) acc).get
        (pd ++ [nm])) = acc.get (pd ++ [nm]) := by
  intro names
  induction names with
  | nil => intro acc nm _ _ hnm _; exact absurd hnm (by simp)
  | cons n0 rest ih =>
    intro acc nm hnodup hdisj hnm hfail
    have hn0notin : n0 ∉ rest := (List.nodup_cons.mp hnodup).1
    have hP2 : ∀ nm2, ∀ d : PyDatetime, pd ++ [nm] ≠
        orgBase ++ [toString d.year, pad2 d.month, pad2 d.day, nm2] := by
      intro nm2 d he
      have : (pd ++ [nm]).take orgBase.length = orgBase := by
        rw [he]
        exact List.take_left orgBase _
      exact hdisj nm hnm this
    simp only [List.foldl_cons]
    rcases List.mem_cons.mp hnm with rfl | hnm2
    · -- the failing file is processed first: its step is a no-op,
      -- and the rest never touches it
      have hstep : (orgStep exif mtime orgFail orgBase pd acc nm).get
          (pd ++ [nm]) = acc.get (pd ++ [nm]) := by
        unfold orgStep
        by_cases hf : acc.isFileAt (pd ++ [nm]) = true
        · rw [if_pos hf]
          unfold organizeFile
          rw [if_pos hfail]
        · rw [if_neg hf]
      have harg1 : ∀ nm2 ∈ rest, pd ++ [nm] ≠ pd ++ [nm2] := by
        intro nm2 h he
        have : nm = nm2 := by simpa using List.append_cancel_left he
        exact hn0notin (this ▸ h)
      rw [orgFold_get_pres exif mtime orgFail orgBase pd rest _ _
        harg1 (fun nm2 _ d => hP2 nm2 d)]
      exact hstep
    · rw [ih _ nm (List.nodup_cons.mp hnodup).2
        (fun nm2 h => hdisj nm2 (List.mem_cons_of_mem _ h)) hnm2 hfail]
      refine orgStep_pres _ _ _ _ _ _ _ _ ?_ (fun d => hP2 n0 d)
      intro he
      have : nm = n0 := by simpa using List.append_cancel_left he
      exact hn0notin (this ▸ hnm2)

/-- Organizer loop: a file whose processing does not raise and whose
date resolves is present at its organized date path afterwards,
whatever happened to the other files. -/
theorem orgFold_success_lands (exif : Path → Option (Nat × String))
    (mtime : Path → PyDatetime) (orgFail : Path → Bool)
    (orgBase pd : Path) :
    ∀ (names : List Name) (acc : FS) (nm : Name) (d : PyDatetime)
      (c : Nat),
      names.Nodup →
      (∀ nm2 ∈ names, (pd ++ [nm2]).take orgBase.length ≠ orgBase) →
      nm ∈ names → orgFail (pd ++ [nm]) = false →
      getPhotoDate (exif (pd ++ [nm])) (mtime (pd ++ [nm])) =
        Except.ok d →
      acc.get (pd ++ [nm]) = some c →
      ((names.foldl (orgStep exif mtime orgFail orgBase pd) acc).get
        (orgBase ++ [toString d.year, pad2 d.month, pad2 d.day, nm])) =
        some c := by
  intro names
  induction names with
  | nil => intro acc nm d c _ _ hnm _ _ _; exact absurd hnm (by simp)
  | cons n0 rest ih =>
    intro acc nm d c hnodup hdisj hnm hfail hdate hc
    have hn0notin : n0 ∉ rest := (List.nodup_cons.mp hnodup).1
    simp only [List.foldl_cons]
    rcases List.mem_cons.mp hnm with rfl | hnm2
    · -- processed first: moved to its date bucket, then untouched
      have hstep : (orgStep exif mtime orgFail orgBase pd acc nm) =
          acc.move (pd ++ [nm])
            (orgBase ++ [toString d.year, pad2 d.month, pad2 d.day, nm])
          := by
        unfold orgStep
        rw [if_pos (by simp [FS.isFileAt, hc])]
        unfold organizeFile
        rw [if_neg (by simp [hfail]), hdate]
      rw [orgFold_get_pres exif mtime orgFail orgBase pd rest _ _
        ?_ ?_]
      · rw [hstep, FS.get_move _ _ _ _ c hc, if_pos rfl]
      · intro nm2 h he
        exact hdisj nm2 (List.mem_cons_of_mem _ h)
          (by rw [← he]; exact List.take_left orgBase _)
      · intro nm2 h d2 he
        have : nm = nm2 := by
          have h4 := List.append_cancel_left he
          simp only [List.cons.injEq] at h4
          exact h4.2.2.2.1
        exact hn0notin (this ▸ h)
    · refine ih _ nm d c (List.nodup_cons.mp hnodup).2
        (fun nm2 h => hdisj nm2 (List.mem_cons_of_mem _ h))
        hnm2 hfail hdate ?_
      refine (orgStep_pres _ _ _ _ _ _ _ _ ?_ ?_).trans hc
      · intro he
        have : nm = n0 := by simpa using List.append_cancel_left he
        exact hn0notin (this ▸ hnm2)
      · intro d2 he
        exact hdisj nm (List.mem_cons_of_mem _ hnm2)
          (by rw [he]; exact List.take_left orgBase _)

/-- C6 counterexample: a quarantine move that raises during a
successful detector run is only logged — the error list stays empty
while the member is left unmoved — refuting that every per-file I/O
failure is recorded into the ConsolidationStats error list. -/
theorem claim_C6_counterexample :
    (runJdupesDeduplication
      (fun p => decide (p = "/mnt/staging/raw_photos/B_b.jpg"))
      "/mnt/staging"
      (JdupesResult.completed 0
        "/mnt/staging/raw_photos/A_a.jpg\n/mnt/staging/raw_photos/B_b.jpg"
        "")
      false
      (SFS.mk [("/mnt/staging/raw_photos/A_a.jpg", 1),
               ("/mnt/staging/raw_photos/B_b.jpg", 2)])
      (Stats.mk 0 0 0 [])).2.errors = [] ∧
    ((runJdupesDeduplication
      (fun p => decide (p = "/mnt/staging/raw_photos/B_b.jpg"))
      "/mnt/staging"
      (JdupesResult.completed 0
        "/mnt/staging/raw_photos/A_a.jpg\n/mnt/staging/raw_photos/B_b.jpg"
        "")
      false
      (SFS.mk [("/mnt/staging/raw_photos/A_a.jpg", 1),
               ("/mnt/staging/raw_photos/B_b.jpg", 2)])
      (Stats.mk 0 0 0 [])).1).get "/mnt/staging/raw_photos/B_b.jpg" =
      some 2 := by
  constructor
  · decide
  · decide

/-- C6 (amended): every per-file I/O failure is caught and processing
continues with the next file in all three loops; but only the Staging
Materializer records the failure into the ConsolidationStats error
list — the Duplicate Resolver's quarantine moves and the Temporal
Organizer's moves log the failure without recording it (the resolver's
stage leaves the error list exactly as it found it).  Conclusions, in
order: a failing staged copy's message is recorded; a non-failing copy
still lands; a completed detector run never changes the error list; a
failing quarantine move leaves its member untouched; a non-failing
member of the same group is still quarantined; a failing organizer
file stays at its staged path; a non-failing organizer file still
reaches its date bucket. -/
theorem claim_C6_failures_continue_only_staging_records
    (failA : String → Bool) (stageA : Path) (srcA : String)
    (filesA : List (String × Nat)) (fsA : FS) (stA : Stats)
    (fA gA : String × Nat) (subF subG : String)
    (hfA : fA ∈ filesA) (hsubF : destSubdir fA.1 = some subF)
    (hffA : failA fA.1 = true)
    (hgA : gA ∈ filesA) (hsubG : destSubdir gA.1 = some subG)
    (hfgA : failA gA.1 = false)
    (failB : String → Bool) (stageB outB errB : String)
    (fsB : SFS) (stB : Stats)
    (lB : List String) (fsB2 : SFS) (nB : Nat) (mB mB2 : String)
    (hnodupB : (lB.map pyStrip).Nodup)
    (hexB : ∀ m ∈ lB, (fsB2.get (pyStrip m)).isSome = true)
    (hqB : ∀ m ∈ lB, ∀ m2 ∈ lB,
      quarantinePath stageB (baseName (pyStrip m)) ≠ pyStrip m2)
    (hmB : mB ∈ lB) (hfmB : failB (pyStrip mB) = true)
    (hmB2 : mB2 ∈ lB) (hfmB2 : failB (pyStrip mB2) = false)
    (exifC : Path → Option (Nat × String)) (mtimeC : Path → PyDatetime)
    (orgFailC : Path → Bool) (orgBaseC pdC : Path)
    (namesC : List Name) (accC : FS) (nmC nmC2 : Name)
    (dC : PyDatetime) (cC2 : Nat)
    (hnodupC : namesC.Nodup)
    (hdisjC : ∀ nm2 ∈ namesC,
      (pdC ++ [nm2]).take orgBaseC.length ≠ orgBaseC)
    (hmC : nmC ∈ namesC) (hfC : orgFailC (pdC ++ [nmC]) = true)
    (hmC2 : nmC2 ∈ namesC) (hfC2 : orgFailC (pdC ++ [nmC2]) = false)
    (hdateC : getPhotoDate (exifC (pdC ++ [nmC2]))
      (mtimeC (pdC ++ [nmC2])) = Except.ok dC)
    (hcC2 : accC.get (pdC ++ [nmC2]) = some cC2) :
    ("Failed to copy " ++ fA.1) ∈
      (copyPhotosFromSource failA false stageA srcA filesA fsA
        stA).2.errors ∧
    (((copyPhotosFromSource failA false stageA srcA filesA fsA
        stA).1).get (stageA ++ [subG, srcA ++ "_" ++ gA.1])).isSome
      = true ∧
    (runJdupesDeduplication failB stageB
      (JdupesResult.completed 0 outB errB) false fsB stB).2.errors =
      stB.errors ∧
    (lB.foldl (moveDup failB stageB) (fsB2, nB)).1.get (pyStrip mB) =
      fsB2.get (pyStrip mB) ∧
    ((lB.foldl (moveDup failB stageB) (fsB2, nB)).1.get
      (quarantinePath stageB (baseName (pyStrip mB2)))).isSome = true ∧
    (namesC.foldl (orgStep exifC mtimeC orgFailC orgBaseC pdC)
      accC).get (pdC ++ [nmC]) = accC.get (pdC ++ [nmC]) ∧
    (namesC.foldl (orgStep exifC mtimeC orgFailC orgBaseC pdC)
      accC).get (orgBaseC ++
        [toString dC.year, pad2 dC.month, pad2 dC.day, nmC2]) =
      some cC2 := by
  have hmainB := dedupFold_main failB stageB lB fsB2 nB hnodupB hexB hqB
  refine ⟨?_, ?_, ?_, ?_, ?_, ?_, ?_⟩
  · exact copyFold_error_recorded failA stageA srcA filesA (fsA, stA)
      fA subF hfA hsubF hffA
  · exact copyFold_success_lands failA stageA srcA filesA (fsA, stA)
      gA subG hgA hsubG hfgA
  · simp [runJdupesDeduplication]
  · exact hmainB.2.1 mB hmB hfmB
  · exact (hmainB.1 mB2 hmB2 hfmB2).2
  · exact orgFold_failed_untouched exifC mtimeC orgFailC orgBaseC pdC
      namesC accC nmC hnodupC hdisjC hmC hfC
  · exact orgFold_success_lands exifC mtimeC orgFailC orgBaseC pdC
      namesC accC nmC2 dC cC2 hnodupC hdisjC hmC2 hfC2 hdateC hcC2

/-- Witness for C6 (amended): concrete runs of all three loops — a
failing staged copy is recorded while a good one lands; a failing
quarantine move leaves its member while the other member is
quarantined and the error list is untouched; a failing organizer file
stays while the other reaches `2020/01/02`. -/
theorem claim_C6_witness :
    destSubdir "bad.jpg" = some "processed_photos" ∧
    (fun (s : String) => decide (s = "bad.jpg")) "bad.jpg" = true ∧
    destSubdir "good.cr2" = some "raw_photos" ∧
    (fun (s : String) => decide (s = "bad.jpg")) "good.cr2" = false ∧
    ((["/s/raw_photos/b.jpg", "/s/raw_photos/c.jpg"].map pyStrip).Nodup) ∧
    (∀ m ∈ ["/s/raw_photos/b.jpg", "/s/raw_photos/c.jpg"],
      ((SFS.mk [("/s/raw_photos/b.jpg", 1), ("/s/raw_photos/c.jpg", 2)]).get
        (pyStrip m)).isSome = true) ∧
    (∀ m ∈ ["/s/raw_photos/b.jpg", "/s/raw_photos/c.jpg"],
      ∀ m2 ∈ ["/s/raw_photos/b.jpg", "/s/raw_photos/c.jpg"],
      quarantinePath "/s" (baseName (pyStrip m)) ≠ pyStrip m2) ∧
    (fun (p : String) => decide (p = "/s/raw_photos/b.jpg"))
      (pyStrip "/s/raw_photos/b.jpg") = true ∧
    (fun (p : String) => decide (p = "/s/raw_photos/b.jpg"))
      (pyStrip "/s/raw_photos/c.jpg") = false ∧
    (["x.cr2", "y.cr2"] : List Name).Nodup ∧
    (∀ nm2 ∈ (["x.cr2", "y.cr2"] : List Name),
      ((["mnt","staging","raw_photos"] : Path) ++ [nm2]).take
        (["mnt","staging","organized"] : Path).length ≠
        ["mnt","staging","organized"]) ∧
    (fun (p : Path) => decide (p = ["mnt","staging","raw_photos","x.cr2"]))
      ((["mnt","staging","raw_photos"] : Path) ++ ["x.cr2"]) = true ∧
    (fun (p : Path) => decide (p = ["mnt","staging","raw_photos","x.cr2"]))
      ((["mnt","staging","raw_photos"] : Path) ++ ["y.cr2"]) = false ∧
    getPhotoDate none (PyDatetime.mk 2020 1 2 3 4 5) =
      Except.ok (PyDatetime.mk 2020 1 2 3 4 5) ∧
    (FS.mk [(["mnt","staging","raw_photos","x.cr2"], 7),
            (["mnt","staging","raw_photos","y.cr2"], 8)]).get
      ((["mnt","staging","raw_photos"] : Path) ++ ["y.cr2"]) = some 8 ∧
    (("Failed to copy " ++ ("bad.jpg", (5:Nat)).1) ∈
      (copyPhotosFromSource (fun s => decide (s = "bad.jpg")) false
        ["mnt","staging"] "primary" [("bad.jpg", 5), ("good.cr2", 6)]
        (FS.mk []) (Stats.mk 0 0 0 [])).2.errors ∧
     (((copyPhotosFromSource (fun s => decide (s = "bad.jpg")) false
        ["mnt","staging"] "primary" [("bad.jpg", 5), ("good.cr2", 6)]
        (FS.mk []) (Stats.mk 0 0 0 [])).1).get
        ((["mnt","staging"] : Path) ++
          ["raw_photos", "primary" ++ "_" ++ ("good.cr2", (6:Nat)).1])).isSome
        = true ∧
     (runJdupesDeduplication (fun p => decide (p = "/s/raw_photos/b.jpg"))
        "/s" (JdupesResult.completed 0 "" "") false (SFS.mk [])
        (Stats.mk 0 0 0 [])).2.errors = (Stats.mk 0 0 0 []).errors ∧
     ((["/s/raw_photos/b.jpg", "/s/raw_photos/c.jpg"] : List String).foldl
        (moveDup (fun p => decide (p = "/s/raw_photos/b.jpg")) "/s")
        (SFS.mk [("/s/raw_photos/b.jpg", 1), ("/s/raw_photos/c.jpg", 2)],
          0)).1.get (pyStrip "/s/raw_photos/b.jpg") =
      (SFS.mk [("/s/raw_photos/b.jpg", 1),
               ("/s/raw_photos/c.jpg", 2)]).get
        (pyStrip "/s/raw_photos/b.jpg") ∧
     (((["/s/raw_photos/b.jpg", "/s/raw_photos/c.jpg"] : List String).foldl
        (moveDup (fun p => decide (p = "/s/raw_photos/b.jpg")) "/s")
        (SFS.mk [("/s/raw_photos/b.jpg", 1), ("/s/raw_photos/c.jpg", 2)],
          0)).1.get
        (quarantinePath "/s" (baseName (pyStrip "/s/raw_photos/c.jpg")))).isSome
        = true ∧
     ((["x.cr2", "y.cr2"] : List Name).foldl
        (orgStep (fun _ => none) (fun _ => PyDatetime.mk 2020 1 2 3 4 5)
          (fun p => decide (p = ["mnt","staging","raw_photos","x.cr2"]))
          ["mnt","staging","organized"] ["mnt","staging","raw_photos"])
        (FS.mk [(["mnt","staging","raw_photos","x.cr2"], 7),
                (["mnt","staging","raw_photos","y.cr2"], 8)])).get
        ((["mnt","staging","raw_photos"] : Path) ++ ["x.cr2"]) =
      (FS.mk [(["mnt","staging","raw_photos","x.cr2"], 7),
              (["mnt","staging","raw_photos","y.cr2"], 8)]).get
        ((["mnt","staging","raw_photos"] : Path) ++ ["x.cr2"]) ∧
     ((["x.cr2", "y.cr2"] : List Name).foldl
        (orgStep (fun _ => none) (fun _ => PyDatetime.mk 2020 1 2 3 4 5)
          (fun p => decide (p = ["mnt","staging","raw_photos","x.cr2"]))
          ["mnt","staging","organized"] ["mnt","staging","raw_photos"])
        (FS.mk [(["mnt","staging","raw_photos","x.cr2"], 7),
                (["mnt","staging","raw_photos","y.cr2"], 8)])).get
        ((["mnt","staging","organized"] : Path) ++
          [toString (PyDatetime.mk 2020 1 2 3 4 5).year,
           pad2 (PyDatetime.mk 2020 1 2 3 4 5).month,
           pad2 (PyDatetime.mk 2020 1 2 3 4 5).day, "y.cr2"]) = some 8) :=
  ⟨by decide, by decide, by decide, by decide, by decide, by decide,
   by decide, by decide, by decide, by decide, by decide, by decide,
   by decide, by decide, by decide,
   claim_C6_failures_continue_only_staging_records
     (fun s => decide (s = "bad.jpg")) ["mnt","staging"] "primary"
     [("bad.jpg", 5), ("good.cr2", 6)] (FS.mk []) (Stats.mk 0 0 0 [])
     ("bad.jpg", 5) ("good.cr2", 6) "processed_photos" "raw_photos"
     (by decide) (by decide) (by decide) (by decide) (by decide)
     (by decide)
     (fun p => decide (p = "/s/raw_photos/b.jpg")) "/s" "" ""
     (SFS.mk []) (Stats.mk 0 0 0 [])
     ["/s/raw_photos/b.jpg", "/s/raw_photos/c.jpg"]
     (SFS.mk [("/s/raw_photos/b.jpg", 1), ("/s/raw_photos/c.jpg", 2)]) 0
     "/s/raw_photos/b.jpg" "/s/raw_photos/c.jpg"
     (by decide) (by decide) (by decide) (by decide) (by decide)
     (by decide) (by decide)
     (fun _ => none) (fun _ => PyDatetime.mk 2020 1 2 3 4 5)
     (fun p => decide (p = ["mnt","staging","raw_photos","x.cr2"]))
     ["mnt","staging","organized"] ["mnt","staging","raw_photos"]
     ["x.cr2", "y.cr2"]
     (FS.mk [(["mnt","staging","raw_photos","x.cr2"], 7),
             (["mnt","staging","raw_photos","y.cr2"], 8)])
     "x.cr2" "y.cr2" (PyDatetime.mk 2020 1 2 3 4 5) 8
     (by decide) (by decide) (by decide) (by decide) (by decide)
     (by decide) (by decide) (by decide)⟩

/-- C8: the command surface advertises the standalone steps gather,
dedupe, organize and `--step import` among its choices, but `main`
executes a stage only for `discover` and `all`; every other advertised
step value falls into the branch that logs `not implemented yet` and
performs no stage work — the code contradicts its own advertised
`--step` interface. -/
theorem claim_C8_single_steps_not_implemented :
    mainDispatch "discover" = MainAction.printDiscover ∧
    mainDispatch "all" = MainAction.fullRun ∧
    mainDispatch "gather" = MainAction.stepNotImplemented "gather" ∧
    mainDispatch "dedupe" = MainAction.stepNotImplemented "dedupe" ∧
    mainDispatch "organize" = MainAction.stepNotImplemented "organize" ∧
    mainDispatch "import" = MainAction.stepNotImplemented "import" ∧
    "gather" ∈ stepChoices ∧ "dedupe" ∈ stepChoices ∧
    "organize" ∈ stepChoices ∧ "import" ∈ stepChoices := by
  refine ⟨rfl, rfl, ?_, ?_, ?_, ?_, ?_, ?_, ?_, ?_⟩ <;> decide

/-- C9 counterexample: a dry-run full pipeline still performs a
filesystem write — `generate_report` writes the report file
unconditionally — refuting the claim that a dry run writes no file at
all. -/
theorem claim_C9_counterexample :
    FsEffect.reportWriteEff reportFilePath ∈
      runFullConsolidationEffects true ["mnt","staging"]
        [("primary", [("a.jpg", 1)])] [] [] [] := by
  decide

/-- C9 (amended): a dry full run performs no staging or library
mutation — no directory created, no file copied, moved, quarantined or
merged — while the walk and counting still happen; but the run report
is still written to its fixed path, so the dry run's whole non-log
effect trace is exactly that one report write. -/
theorem claim_C9_dry_run_mutates_nothing_but_the_report
    (stageDir : Path) (sources : List (String × List (String × Nat)))
    (dedupeEffects organizeEffects importEffects : List FsEffect) :
    runFullConsolidationEffects true stageDir sources
      dedupeEffects organizeEffects importEffects =
      [FsEffect.reportWriteEff reportFilePath] := by
  have hgather : gatherAllPhotosEffects true stageDir sources = [] := by
    simp only [gatherAllPhotosEffects]
    induction sources with
    | nil => rfl
    | cons s rest ih =>
      rw [List.flatMap_cons, ih, List.append_nil]
      rw [List.filterMap_eq_nil]
      intro f hf
      cases hds : destSubdir f.1 <;> simp [hds]
  simp [runFullConsolidationEffects, prepareStagingAreaEffects, hgather]

end Photonic
